import Mathlib

/-!
# Anomaly analyzer worker: scoring engine, consumer loop and thread pool

A shallow embedding of the C++ analyzer (`packet_parser.cpp`, `main.cpp`,
`thread_pool.h`) together with theorems about it.

Conventions of the embedding.

* `std::string` is a `String` read byte for byte: one `Char` stands for one byte.
* `uint8_t`, `uint16_t`, `uint32_t` fields are `Nat`; every narrowing conversion
  of the source is written out as an explicit `%`.
* `double` values are rationals (every finite double is one; JSON text cannot
  denote a NaN or an infinity, so none reaches the scoring).  In `score` every
  arithmetic operation on doubles is followed by `to_double`, the rounding of
  IEEE 754 binary64 (to nearest, ties to even), and a decimal constant of the
  source stands for the double nearest to it; constants that are doubles
  themselves (`1.0`, `7.5`, `0.75`, `100`, ...) are written as they are.
  `compute_entropy` is written over an arbitrary field of numbers, with the
  operations of that field and with the logarithm as an argument.
* What the program gets from libraries that are not part of the repository
  (`json::parse`, `std::log2`, the machine result of an out-of-range
  double-to-integer conversion) is collected in `Externals` and every function
  that depends on it takes it as an argument.
-/

namespace Analyzer

/-! ## JSON values (nlohmann::json as far as the analyzer looks at it) -/

/-- A parsed JSON value.  `int` covers `number_integer` and `number_unsigned`,
`float` is `number_float`.  An object is an association list read by its first
match (keys of a parsed object are unique). -/
inductive Json where
  | null
  | bool (b : Bool)
  | int (n : Int)
  | float (q : ℚ)
  | str (s : String)
  | arr (xs : List Json)
  | obj (kvs : List (String × Json))

/-- The exceptions derived from `json::exception` that the analyzer can meet:
`parse_error` from `json::parse`, `type_error` (with its id) from `value` and
`get`. -/
inductive JsonException where
  | parse_error
  | type_error (id : Nat)
  deriving DecidableEq, Repr

/-- Library behaviour the analyzer relies on. -/
structure Externals where
  /-- Stands for `json::parse`; `none` is a thrown `parse_error`. -/
  parse : String → Option Json
  /-- Stands for `std::log2` on doubles. -/
  log2 : ℚ → ℚ
  /-- Value a double-to-integer conversion produces when the truncated value
  does not fit the target type (left undefined by the language). -/
  cast_oor : ℚ → Int

/-- Truncation toward zero of a double. -/
def trunc (q : ℚ) : Int := q.num.tdiv q.den

/-- Reduction of an integer into the range of `int` (32 bit two's complement). -/
def wrap_int32 (n : Int) : Int := (n + 2 ^ 31) % 2 ^ 32 - 2 ^ 31

/-- Models `static_cast<int>(double)`. -/
def cast_double_int (E : Externals) (q : ℚ) : Int :=
  if -(2 ^ 31) ≤ trunc q ∧ trunc q < 2 ^ 31 then trunc q else wrap_int32 (E.cast_oor q)

/-- Models `static_cast<unsigned>(double)`. -/
def cast_double_unsigned (E : Externals) (q : ℚ) : Nat :=
  if 0 ≤ trunc q ∧ trunc q < 2 ^ 32 then (trunc q).toNat else (E.cast_oor q % 2 ^ 32).toNat

/-- Models `j.get<std::string>()`. -/
def get_string : Json → Except JsonException String
  | .str s => .ok s
  | _ => .error (.type_error 302)

/-- Models `j.get<int>()`: numbers and booleans convert, anything else throws. -/
def get_int (E : Externals) : Json → Except JsonException Int
  | .int n => .ok (wrap_int32 n)
  | .float q => .ok (cast_double_int E q)
  | .bool b => .ok (if b then 1 else 0)
  | _ => .error (.type_error 302)

/-- Models `j.get<unsigned>()`. -/
def get_unsigned (E : Externals) : Json → Except JsonException Nat
  | .int n => .ok (n % 2 ^ 32).toNat
  | .float q => .ok (cast_double_unsigned E q)
  | .bool b => .ok (if b then 1 else 0)
  | _ => .error (.type_error 302)

/-- Models `j.get<double>()`: only numbers convert. -/
def get_double : Json → Except JsonException ℚ
  | .int n => .ok (n : ℚ)
  | .float q => .ok q
  | _ => .error (.type_error 302)

/-- Models `pkt.value(key, default_value)`: on an object the converted member
when the key is present and the default otherwise; on any other value a
`type_error` 306. -/
def value {α : Type} (get : Json → Except JsonException α) (pkt : Json) (key : String)
    (default_value : α) : Except JsonException α :=
  match pkt with
  | .obj kvs =>
    match kvs.lookup key with
    | some j => get j
    | none => .ok default_value
  | _ => .error (.type_error 306)

/-- Models `pkt.contains(key)`. -/
def contains (pkt : Json) (key : String) : Bool :=
  match pkt with
  | .obj kvs => (kvs.lookup key).isSome
  | _ => false

/-- Models `pkt[key]` on a const value whose key is present. -/
def at_key (pkt : Json) (key : String) : Json :=
  match pkt with
  | .obj kvs => (kvs.lookup key).getD .null
  | _ => .null

/-! ## IEEE 754 binary64 arithmetic -/

/-- Number of binary digits of `n`, the first argument bounding the recursion. -/
def bits : Nat → Nat → Nat
  | 0, _ => 0
  | fuel + 1, n => if n = 0 then 0 else bits fuel (n / 2) + 1

/-- Number of binary digits of `n`. -/
def bit_length (n : Nat) : Nat := bits n n

/-- The binary exponent of the positive rational `N / D`: the integer `e` with
`2 ^ e ≤ N / D < 2 ^ (e + 1)`. -/
def binade (N D : Nat) : Int :=
  let d : Int := (bit_length N : Int) - (bit_length D : Int)
  if (if 0 ≤ d then D * 2 ^ d.toNat ≤ N else D ≤ N * 2 ^ (-d).toNat) then d else d - 1

/-- The integer nearest to `N / D`, the even one of the two when `N / D` lies
half way. -/
def round_half_even (N D : Nat) : Nat :=
  let f := N / D
  let r := N % D
  if 2 * r < D then f else if D < 2 * r then f + 1 else if f % 2 = 0 then f else f + 1

/-- The double a real result is rounded to (round to nearest, ties to even): a
multiple of `2 ^ (e - 52)`, where `e` is the binary exponent of the value and at
least `-1022`.  A result past the largest double becomes an infinity, for which
`2 ^ 1024` stands here. -/
def to_double (q : ℚ) : ℚ :=
  if q = 0 then 0
  else
    let N := q.num.natAbs
    let D := q.den
    let s : Int := max (binade N D) (-1022) - 52
    let r : ℚ :=
      if 0 ≤ s then
        ((min (round_half_even N (D * 2 ^ s.toNat) * 2 ^ s.toNat) (2 ^ 1024) : Nat) : ℚ)
      else (round_half_even (N * 2 ^ (-s).toNat) D : ℚ) / ((2 ^ (-s).toNat : Nat) : ℚ)
    if q < 0 then -r else r

/-! ## packet_parser.h -/

structure PacketFeatures where
  source_ip : String := ""
  destination_ip : String := ""
  protocol : String := ""
  src_port : Nat := 0
  dst_port : Nat := 0
  payload_len : Nat := 0
  ttl : Nat := 64
  tcp_flags : Nat := 0
  payload_entropy : ℚ := 0
  pkt_rate : ℚ := 0

structure AnomalyResult where
  source_ip : String := ""
  destination_ip : String := ""
  protocol : String := ""
  score : ℚ := 0
  severity : String := ""
  description : String := ""

/-! ## packet_parser.cpp: entropy -/

/-- The `isspace` of the C locale. -/
def isspace (c : Char) : Bool :=
  c.toNat = 32 || (9 ≤ c.toNat && c.toNat ≤ 13)

/-- Value of a hexadecimal digit. -/
def hex_digit (c : Char) : Option Nat :=
  if 48 ≤ c.toNat ∧ c.toNat ≤ 57 then some (c.toNat - 48)
  else if 97 ≤ c.toNat ∧ c.toNat ≤ 102 then some (c.toNat - 87)
  else if 65 ≤ c.toNat ∧ c.toNat ≤ 70 then some (c.toNat - 55)
  else none

/-- Models `std::stoul(s, nullptr, 16)`: leading white space is skipped, a sign
and a `0x` prefix are accepted, then the longest run of hexadecimal digits is
read and whatever follows is ignored.  `none` is a thrown exception
(`invalid_argument` when there is no digit, `out_of_range` past 64 bits); a
minus sign negates modulo `2 ^ 64`. -/
def stoul16 (s : List Char) : Option Nat :=
  let s1 := s.dropWhile isspace
  let neg := s1.head? = some '-'
  let s2 := if s1.head? = some '-' ∨ s1.head? = some '+' then s1.tail else s1
  let s3 :=
    match s2 with
    | z :: x :: h :: r =>
      if z = '0' ∧ (x = 'x' ∨ x = 'X') ∧ (hex_digit h).isSome then h :: r else s2
    | _ => s2
  let digits := (s3.takeWhile fun c => (hex_digit c).isSome).filterMap hex_digit
  if digits = [] then none
  else
    let v := digits.foldl (fun a d => 16 * a + d) 0
    if 2 ^ 64 ≤ v then none
    else some (if neg then (2 ^ 64 - v) % 2 ^ 64 else v)

/-- The decoding loop of `compute_entropy`: `for (i = 0; i + 1 < hex.size(); i += 2)`
converts `hex.substr(i, 2)`, narrows the result to `uint8_t` and records it; a
group whose conversion throws is skipped.  Returns the recorded bytes in order. -/
def decode_groups : List Char → List Nat
  | a :: b :: rest =>
    match stoul16 [a, b] with
    | some v => (v % 256) :: decode_groups rest
    | none => decode_groups rest
  | _ => []

/-- The table `freq` after the decoding loop. -/
def freq_table (bytes : List Nat) : List Nat :=
  (List.range 256).map fun v => bytes.count v

/-- Models `PacketParser::compute_entropy`, over any field `K` of numbers and
with the base-2 logarithm as an argument. -/
def compute_entropy {K : Type} [Field K] (log2 : K → K) (hex : String) : K :=
  if hex.length < 2 then 0
  else
    let bytes := decode_groups hex.toList
    let byte_count := bytes.length
    if byte_count = 0 then 0
    else
      (freq_table bytes).foldl
        (fun (entropy : K) (c : Nat) =>
          if c = 0 then entropy
          else
            let p : K := (c : K) / (byte_count : K)
            entropy - p * log2 p)
        0

/-! ## packet_parser.cpp: features -/

/-- Models `PacketParser::extract_features`; an error is the `json::exception`
that leaves the function. -/
def extract_features (E : Externals) (pkt : Json) : Except JsonException PacketFeatures := do
  let source_ip ← value get_string pkt "src_ip" "0.0.0.0"
  let destination_ip ← value get_string pkt "dst_ip" "0.0.0.0"
  let protocol ← value get_string pkt "protocol" "UNKNOWN"
  let src_port ← value (get_int E) pkt "src_port" 0
  let dst_port ← value (get_int E) pkt "dst_port" 0
  let payload_len ← value (get_unsigned E) pkt "payload_len" 0
  let ttl ← value (get_int E) pkt "ttl" 64
  let tcp_flags ← value (get_unsigned E) pkt "tcp_flags" 0
  let payload_entropy ←
    if contains pkt "payload_hex" then
      (get_string (at_key pkt "payload_hex")).map (compute_entropy E.log2)
    else pure 0
  let pkt_rate ← value get_double pkt "pkt_rate" 0
  pure {
    source_ip := source_ip
    destination_ip := destination_ip
    protocol := protocol
    src_port := (src_port % 2 ^ 16).toNat
    dst_port := (dst_port % 2 ^ 16).toNat
    payload_len := payload_len
    ttl := (ttl % 2 ^ 8).toNat
    tcp_flags := tcp_flags % 2 ^ 8
    payload_entropy := payload_entropy
    pkt_rate := pkt_rate }

/-! ## packet_parser.cpp: scoring -/

def SUSPICIOUS_PORTS : List Nat := [23, 4444, 6667, 6666, 1337, 31337, 9001]

def SYN_FLAG : Nat := 0x02

def ACK_FLAG : Nat := 0x10

/-- Models `PacketParser::severity_label`. -/
def severity_label (score : ℚ) : String :=
  if score ≥ 0.75 then "critical"
  else if score ≥ 0.50 then "high"
  else if score ≥ 0.25 then "medium"
  else "low"

/-- Two decimal digits of a number below 100. -/
def two_digits (n : Nat) : String :=
  toString (n / 10) ++ toString (n % 10)

/-- Models `std::to_string(k / 100.0)` for an `int` k: the `%f` rendering, six
digits after the point.  The quotient is the double nearest to `k / 100`, which
is closer to it than half a unit of the sixth digit, so the digits printed are
those of `k / 100`. -/
def to_string_hundredths (k : Int) : String :=
  (if k < 0 then "-" else "") ++ toString (k.natAbs / 100) ++ "." ++
    two_digits (k.natAbs % 100) ++ "0000"

/-- One `if (cond) { s += w; reasons.push_back(reason); }` block of `score`: the
constant `w` is the double nearest to the decimal written in the source and the
sum is rounded to a double. -/
def apply_rule (cond : Bool) (w : ℚ) (reason : String) (acc : ℚ × List String) :
    ℚ × List String :=
  if cond then (to_double (acc.1 + to_double w), acc.2 ++ [reason]) else acc

/-- The loop of `score` that writes the reasons with `"; "` between them. -/
def join_reasons : List String → String
  | [] => ""
  | r :: rest => rest.foldl (fun desc x => desc ++ "; " ++ x) r

/-- The accumulated sum and reasons of `score` before the clamp. -/
def score_rules (E : Externals) (f : PacketFeatures) : ℚ × List String :=
  let acc : ℚ × List String := (0, [])
  let acc := apply_rule (decide (f.dst_port ∈ SUSPICIOUS_PORTS)) 0.30
    ("suspicious dst_port=" ++ toString f.dst_port) acc
  let acc := apply_rule (decide (f.payload_entropy > 7.5)) 0.20
    ("high payload entropy=" ++
      to_string_hundredths (cast_double_int E (to_double (f.payload_entropy * 100)))) acc
  let acc := apply_rule (decide (f.ttl < 10) || decide (f.ttl = 255)) 0.15
    ("abnormal TTL=" ++ toString f.ttl) acc
  let acc := apply_rule
    (decide (f.tcp_flags &&& SYN_FLAG ≠ 0) && !decide (f.tcp_flags &&& ACK_FLAG ≠ 0)
      && decide (f.payload_len < 8)) 0.25
    "SYN-only pkt (possible SYN flood)" acc
  let acc := apply_rule (decide (f.pkt_rate > 10000)) 0.20
    ("excessive pkt_rate=" ++ toString (cast_double_int E f.pkt_rate)) acc
  let acc := apply_rule (decide (f.payload_len > 65000)) 0.10
    ("oversized payload=" ++ toString f.payload_len) acc
  acc

/-- Models `PacketParser::score`. -/
def score (E : Externals) (f : PacketFeatures) : AnomalyResult :=
  let acc := score_rules E f
  let s := min acc.1 1.0
  let reasons := acc.2
  let desc :=
    if reasons.isEmpty then "No anomalies detected."
    else "Detected: " ++ join_reasons reasons ++ "."
  { source_ip := f.source_ip
    destination_ip := f.destination_ip
    protocol := f.protocol
    score := s
    severity := severity_label s
    description := desc }

/-! ## main.cpp: one message -/

/-- What a `process_message` task does to the outside: a call of `post_anomaly`
(a delivery attempt to the sink), a line on `std::cerr`, an `XACK` for a stream
id on the acknowledge connection. -/
inductive Effect where
  | post (result : AnomalyResult)
  | log (msg : String)
  | xack (stream_id : String)

/-- Whether an effect is an acknowledge. -/
def Effect.is_xack : Effect → Bool
  | .xack _ => true
  | _ => false

/-- Whether an effect is a delivery attempt. -/
def Effect.is_post : Effect → Bool
  | .post _ => true
  | _ => false

/-- The body of the `try` block of `process_message` up to the scored result. -/
def analyze (E : Externals) (payload : String) : Except JsonException AnomalyResult :=
  match E.parse payload with
  | none => .error .parse_error
  | some pkt => (extract_features E pkt).map (score E)

/-- Models `process_message`: the effects of the task in the order they are
issued; `post_ok` is the answer `post_anomaly` gives if it is called. -/
def process_message (E : Externals) (post_ok : Bool) (stream_id payload : String) :
    List Effect :=
  match analyze E payload with
  | .ok result =>
    if result.score > 0.0 then
      if !post_ok then [.post result, .log ("[worker] POST failed for stream_id=" ++ stream_id)]
      else [.post result, .xack stream_id]
    else [.xack stream_id]
  | .error _ => [.log ("[worker] JSON parse error for " ++ stream_id), .xack stream_id]

/-! ## main.cpp: the poll cycle -/

/-- A hiredis `redisReply`: its `type`, the text at `str` (read as a C string,
which is how the loop reads it) and the children `element[0 .. elements-1]`.
`none` below is a null reply. -/
inductive RedisReply where
  | mk (type : Nat) (str : String) (element : List RedisReply)

def RedisReply.type : RedisReply → Nat
  | .mk t _ _ => t

def RedisReply.str : RedisReply → String
  | .mk _ s _ => s

def RedisReply.element : RedisReply → List RedisReply
  | .mk _ _ es => es

def RedisReply.elements (r : RedisReply) : Nat := r.element.length

def REDIS_REPLY_STRING : Nat := 1

def REDIS_REPLY_ARRAY : Nat := 2

/-- The arguments of one `pool.enqueue(process_message, stream_id, payload, ...)`. -/
structure Task where
  stream_id : String
  payload : String
  deriving DecidableEq, Repr

/-- The inner loop over `fields`: `for (j = 0; j + 1 < fields->elements; j += 2)`,
leaving at the first key equal to `"payload"`; the result is the local `payload`,
empty when the loop found nothing. -/
def find_payload : List RedisReply → String
  | k :: v :: rest => if k.str = "payload" then v.str else find_payload rest
  | _ => ""

/-- The body of the loop over `messages`: the task enqueued for `msg`, if any. -/
def dispatch_message (msg : RedisReply) : Option Task :=
  match msg.element with
  | id :: fields :: _ =>
    let payload := find_payload fields.element
    if payload.isEmpty then none else some { stream_id := id.str, payload := payload }
  | _ => none

/-- What the loop does with a non-null `read_reply`. -/
def dispatch_read_reply (read_reply : RedisReply) : List Task :=
  if read_reply.type = REDIS_REPLY_ARRAY ∧ read_reply.elements > 0 then
    match read_reply.element with
    | stream_entry :: _ =>
      match stream_entry.element with
      | _ :: messages :: _ => messages.element.filterMap dispatch_message
      | _ => []
    | [] => []
  else []

/-- One pass of the `while` loop of `main`, from the replies of `XAUTOCLAIM`
and `XREADGROUP` to the tasks enqueued, in order.  `claim_reply` is handed to
`freeReplyObject` right after the command returns and is not looked at. -/
def poll_cycle (_claim_reply read_reply : Option RedisReply) : List Task :=
  match read_reply with
  | none => []
  | some r => dispatch_read_reply r

/-- The effects of the tasks one cycle enqueues, task by task; `sink t` is the
answer of the sink to the delivery attempted by task `t`.  The loop itself issues
no acknowledge: `XACK` is sent by `process_message` only. -/
def cycle_effects (E : Externals) (sink : Task → Bool)
    (claim_reply read_reply : Option RedisReply) : List Effect :=
  (poll_cycle claim_reply read_reply).flatMap fun t =>
    process_message E (sink t) t.stream_id t.payload

/-! ## thread_pool.h -/

/-- Where a worker thread stands in `worker_loop`: at the wait on the condition
variable, inside `task()`, or returned. -/
inductive Worker (α : Type) where
  | waiting
  | running (t : α)
  | exited
  deriving DecidableEq, Repr

/-- The task a worker holds. -/
def Worker.held {α : Type} : Worker α → List α
  | .running t => [t]
  | _ => []

/-- State of a `ThreadPool` whose tasks are values of `α`: the members `workers_`,
`tasks_` and `stop_`, and two history lists that the code does not keep: the tasks
`enqueue` has accepted and the tasks whose `task()` call has returned. -/
structure ThreadPool (α : Type) where
  workers_ : List (Worker α)
  tasks_ : List α
  stop_ : Bool
  accepted : List α
  completed : List α

inductive PoolError where
  | invalid_argument
  | stopped
  deriving DecidableEq, Repr

/-- The pool right after the constructor when `num_threads > 0`. -/
def ThreadPool.init (α : Type) (num_threads : Nat) : ThreadPool α :=
  { workers_ := List.replicate num_threads .waiting
    tasks_ := []
    stop_ := false
    accepted := []
    completed := [] }

/-- Models the constructor. -/
def ThreadPool.create (α : Type) (num_threads : Nat) : Except PoolError (ThreadPool α) :=
  if num_threads = 0 then .error .invalid_argument else .ok (ThreadPool.init α num_threads)

/-- Models `ThreadPool::enqueue`: throws on a stopped pool, else appends the task. -/
def ThreadPool.enqueue {α : Type} (p : ThreadPool α) (t : α) : Except PoolError (ThreadPool α) :=
  if p.stop_ then .error .stopped
  else .ok { p with tasks_ := p.tasks_ ++ [t], accepted := p.accepted ++ [t] }

/-- The steps of the pool.  `stop` is the locked `stop_ = true` of the destructor;
`take i`, `finish i` and `exit i` are worker `i` leaving the wait with the front
task, returning from `task()`, and returning from `worker_loop`. -/
inductive Action (α : Type) where
  | enqueue (t : α)
  | stop
  | take (i : Nat)
  | finish (i : Nat)
  | exit (i : Nat)

/-- One step; `none` when the step cannot be taken in this state.  A worker
leaves the wait only when `stop_ || !tasks_.empty()`, returns when
`stop_ && tasks_.empty()` and pops the front task otherwise.  A rejected
`enqueue` throws to its caller and changes nothing. -/
def ThreadPool.step {α : Type} (p : ThreadPool α) : Action α → Option (ThreadPool α)
  | .enqueue t =>
    match p.enqueue t with
    | .ok q => some q
    | .error _ => some p
  | .stop => some { p with stop_ := true }
  | .take i =>
    match p.workers_[i]?, p.tasks_ with
    | some .waiting, t :: rest =>
      some { p with workers_ := p.workers_.set i (.running t), tasks_ := rest }
    | _, _ => none
  | .finish i =>
    match p.workers_[i]? with
    | some (.running t) =>
      some { p with workers_ := p.workers_.set i .waiting, completed := p.completed ++ [t] }
    | _ => none
  | .exit i =>
    match p.workers_[i]? with
    | some .waiting =>
      if p.stop_ && p.tasks_.isEmpty then some { p with workers_ := p.workers_.set i .exited }
      else none
    | _ => none

/-- Runs a sequence of steps. -/
def ThreadPool.run {α : Type} (p : ThreadPool α) : List (Action α) → Option (ThreadPool α)
  | [] => some p
  | a :: rest =>
    match p.step a with
    | some q => q.run rest
    | none => none

/-- Every worker thread has returned, which is when the joins of the destructor
are through. -/
def ThreadPool.all_exited {α : Type} (p : ThreadPool α) : Prop :=
  ∀ w ∈ p.workers_, w = Worker.exited

/-- The tasks held by workers. -/
def ThreadPool.in_flight {α : Type} (p : ThreadPool α) : List α :=
  p.workers_.flatMap Worker.held

/-! ## The specification's reading of the scoring rules -/

/-- The rule table as the specification words it: for each rule, in table order,
whether it holds for `f`, its contribution and its reason string. -/
def rule_table (E : Externals) (f : PacketFeatures) : List (Bool × ℚ × String) :=
  [ (decide (f.dst_port ∈ [23, 1337, 4444, 6666, 6667, 9001, 31337]), 0.30,
      "suspicious dst_port=" ++ toString f.dst_port),
    (decide (f.payload_entropy > 7.5), 0.20,
      "high payload entropy=" ++
        to_string_hundredths (cast_double_int E (to_double (f.payload_entropy * 100)))),
    (decide (f.ttl < 10 ∨ f.ttl = 255), 0.15, "abnormal TTL=" ++ toString f.ttl),
    (decide (f.tcp_flags.testBit 1 = true ∧ f.tcp_flags.testBit 4 = false ∧ f.payload_len < 8),
      0.25, "SYN-only pkt (possible SYN flood)"),
    (decide (f.pkt_rate > 10000), 0.20,
      "excessive pkt_rate=" ++ toString (cast_double_int E f.pkt_rate)),
    (decide (f.payload_len > 65000), 0.10, "oversized payload=" ++ toString f.payload_len) ]

/-- The sum `S` of the contributions of the rules that hold, in exact decimal
arithmetic. -/
def rule_sum (E : Externals) (f : PacketFeatures) : ℚ :=
  (((rule_table E f).filter fun r => r.1).map fun r => r.2.1).sum

/-- The sum of the contributions of the rules that hold, added in table order as
doubles: starting from 0, each contribution is taken as the double nearest to it
and each sum is rounded. -/
def rounded_rule_sum (E : Externals) (f : PacketFeatures) : ℚ :=
  ((rule_table E f).filter fun r => r.1).foldl (fun s r => to_double (s + to_double r.2.1)) 0

/-- The rule blocks of `score` applied in order to an accumulator. -/
def run_rules (t : List (Bool × ℚ × String)) (acc : ℚ × List String) : ℚ × List String :=
  t.foldl (fun acc r => apply_rule r.1 r.2.1 r.2.2 acc) acc

/-- The six contributions of the rule table, each with a flag for whether its
rule holds. -/
def weighted (c1 c2 c3 c4 c5 c6 : Bool) : List (Bool × ℚ) :=
  [(c1, 0.30), (c2, 0.20), (c3, 0.15), (c4, 0.25), (c5, 0.20), (c6, 0.10)]

/-- The flagged contributions of a table added as doubles, in order. -/
def rounded_sum (t : List (Bool × ℚ)) : ℚ :=
  (t.filter fun r => r.1).foldl (fun s r => to_double (s + to_double r.2)) 0

/-- The flagged contributions of a table added exactly. -/
def exact_sum (t : List (Bool × ℚ)) : ℚ :=
  ((t.filter fun r => r.1).map fun r => r.2).sum

/-- The reason strings of the rules that hold, in table order. -/
def triggered_reasons (E : Externals) (f : PacketFeatures) : List String :=
  ((rule_table E f).filter fun r => r.1).map fun r => r.2.2

/-- Position of a severity label in the order low, medium, high, critical. -/
def severity_rank (label : String) : Option Nat :=
  if label = "low" then some 0
  else if label = "medium" then some 1
  else if label = "high" then some 2
  else if label = "critical" then some 3
  else none

/-! ## Sample inputs for the scoring engine -/

/-- A fixed choice of the library behaviour, for concrete evaluations: the parser
knows the texts `{}`, `[]` and `{"dst_port":23}`, the logarithm is the exact one
on 1, 1/2, 1/4 and 1/256, an out-of-range conversion gives `INT_MIN`. -/
def sample_externals : Externals where
  parse := fun s =>
    if s = "\x7b\x7d" then some (.obj [])
    else if s = "[]" then some (.arr [])
    else if s = "\x7b\"dst_port\":23\x7d" then some (.obj [("dst_port", .int 23)])
    else none
  log2 := fun q =>
    if q = 1 then 0 else if q = 1 / 2 then -1 else if q = 1 / 4 then -2
    else if q = 1 / 256 then -8 else 0
  cast_oor := fun _ => -(2 ^ 31)

/-- The packet of the specification's scoring scenario; the fields it does not
name keep the defaults of the struct. -/
def syn_probe : PacketFeatures :=
  { dst_port := 4444, ttl := 5, tcp_flags := 0x02, payload_len := 0, pkt_rate := 0 }

/-- A packet for which four rules hold whose contributions add up to 0.75: a
suspicious port, an abnormal ttl, an excessive rate and an oversized payload. -/
def threshold_probe : PacketFeatures :=
  { dst_port := 23, ttl := 5, pkt_rate := 20000, payload_len := 65001 }

/-! ## The specification's reading of the read reply -/

/-- The entries of the read reply: the children of the second element of the
first stream of an array reply. -/
def reply_entries (read_reply : Option RedisReply) : List RedisReply :=
  match read_reply with
  | some (.mk type _ (stream_entry :: _)) =>
    if type = REDIS_REPLY_ARRAY then
      match stream_entry.element with
      | _ :: messages :: _ => messages.element
      | _ => []
    else []
  | _ => []

/-- The field list of an entry, a flat sequence key, value, key, value, ..., as
pairs. -/
def entry_fields : List RedisReply → List (String × String)
  | k :: v :: rest => (k.str, v.str) :: entry_fields rest
  | _ => []

/-- The task the specification expects for an entry: one with the entry's id and
payload when the entry has a payload field and its value is not empty. -/
def expected_task (entry : RedisReply) : Option Task :=
  match entry.element with
  | id :: fields :: _ =>
    match (entry_fields fields.element).lookup "payload" with
    | some p => if p = "" then none else some { stream_id := id.str, payload := p }
    | none => none
  | _ => none

/-- An `XAUTOCLAIM` reply that hands one stale entry, id `1-0` with a payload, to
this consumer. -/
def sample_claim_reply : RedisReply :=
  .mk REDIS_REPLY_ARRAY "" [
    .mk REDIS_REPLY_STRING "0-0" [],
    .mk REDIS_REPLY_ARRAY "" [
      .mk REDIS_REPLY_ARRAY "" [
        .mk REDIS_REPLY_STRING "1-0" [],
        .mk REDIS_REPLY_ARRAY "" [
          .mk REDIS_REPLY_STRING "payload" [],
          .mk REDIS_REPLY_STRING "\x7b\"dst_port\":23\x7d" []]]],
    .mk REDIS_REPLY_ARRAY "" []]

/-! ## The JSON values `extract_features` converts -/

/-- Whether `get<std::string>()` accepts the value. -/
def Json.is_string : Json → Bool
  | .str _ => true
  | _ => false

/-- Whether `get<int>()` and `get<unsigned>()` accept the value. -/
def Json.is_arithmetic : Json → Bool
  | .int _ => true
  | .float _ => true
  | .bool _ => true
  | _ => false

/-- Whether `get<double>()` accepts the value. -/
def Json.is_number : Json → Bool
  | .int _ => true
  | .float _ => true
  | _ => false

/-- A field is absent or its value passes the test. -/
def field_ok (kvs : List (String × Json)) (key : String) (ok : Json → Bool) : Bool :=
  match kvs.lookup key with
  | some j => ok j
  | none => true

/-- The JSON values `extract_features` converts: objects in which every field
the function reads that is present has a type its conversion accepts. -/
def convertible : Json → Bool
  | .obj kvs =>
    field_ok kvs "src_ip" Json.is_string && field_ok kvs "dst_ip" Json.is_string &&
    field_ok kvs "protocol" Json.is_string && field_ok kvs "src_port" Json.is_arithmetic &&
    field_ok kvs "dst_port" Json.is_arithmetic && field_ok kvs "payload_len" Json.is_arithmetic &&
    field_ok kvs "ttl" Json.is_arithmetic && field_ok kvs "tcp_flags" Json.is_arithmetic &&
    field_ok kvs "payload_hex" Json.is_string && field_ok kvs "pkt_rate" Json.is_number
  | _ => false

/-- The `payload_hex` step of `extract_features`. -/
def entropy_step (E : Externals) (pkt : Json) : Except JsonException ℚ :=
  if contains pkt "payload_hex" then
    (get_string (at_key pkt "payload_hex")).map (compute_entropy E.log2)
  else pure 0

/-! ## Further sample inputs -/

/-- A read reply with three entries of one stream: `1-0` with payload `{}`, `1-1`
without a payload field, `1-2` with an empty payload. -/
def sample_read_reply : RedisReply :=
  .mk REDIS_REPLY_ARRAY "" [
    .mk REDIS_REPLY_ARRAY "" [
      .mk REDIS_REPLY_STRING "anomaly:raw" [],
      .mk REDIS_REPLY_ARRAY "" [
        .mk REDIS_REPLY_ARRAY "" [
          .mk REDIS_REPLY_STRING "1-0" [],
          .mk REDIS_REPLY_ARRAY "" [
            .mk REDIS_REPLY_STRING "payload" [],
            .mk REDIS_REPLY_STRING "\x7b\x7d" []]],
        .mk REDIS_REPLY_ARRAY "" [
          .mk REDIS_REPLY_STRING "1-1" [],
          .mk REDIS_REPLY_ARRAY "" [
            .mk REDIS_REPLY_STRING "body" [],
            .mk REDIS_REPLY_STRING "x" []]],
        .mk REDIS_REPLY_ARRAY "" [
          .mk REDIS_REPLY_STRING "1-2" [],
          .mk REDIS_REPLY_ARRAY "" [
            .mk REDIS_REPLY_STRING "payload" [],
            .mk REDIS_REPLY_STRING "" []]]]]]

/-- The features of the JSON text `{"dst_port":23}`. -/
def port_23_features : PacketFeatures :=
  { source_ip := "0.0.0.0"
    destination_ip := "0.0.0.0"
    protocol := "UNKNOWN"
    dst_port := 23 }

/-- The features of the JSON text `{}`. -/
def default_features : PacketFeatures :=
  { source_ip := "0.0.0.0"
    destination_ip := "0.0.0.0"
    protocol := "UNKNOWN" }

/-- The hex text of the 256 byte values 00, 01, ..., ff, each once. -/
def all_bytes_hex : String :=
  "000102030405060708090a0b0c0d0e0f101112131415161718191a1b1c1d1e1f" ++
    "202122232425262728292a2b2c2d2e2f303132333435363738393a3b3c3d3e3f" ++
    "404142434445464748494a4b4c4d4e4f505152535455565758595a5b5c5d5e5f" ++
    "606162636465666768696a6b6c6d6e6f707172737475767778797a7b7c7d7e7f" ++
    "808182838485868788898a8b8c8d8e8f909192939495969798999a9b9c9d9e9f" ++
    "a0a1a2a3a4a5a6a7a8a9aaabacadaeafb0b1b2b3b4b5b6b7b8b9babbbcbdbebf" ++
    "c0c1c2c3c4c5c6c7c8c9cacbcccdcecfd0d1d2d3d4d5d6d7d8d9dadbdcdddedf" ++
    "e0e1e2e3e4e5e6e7e8e9eaebecedeeeff0f1f2f3f4f5f6f7f8f9fafbfcfdfeff"

/-! ## The invariant of the pool and a sample run -/

/-- What holds in every state the pool reaches from its constructor with `n`
threads: the number of workers is `n`; the accepted tasks are, up to order, the
completed ones, the ones being run and the queued ones; and once a worker has
returned, `stop_` is set and the queue is empty. -/
def ThreadPool.invariant {α : Type} (n : Nat) (p : ThreadPool α) : Prop :=
  p.workers_.length = n ∧
  p.accepted.Perm (p.completed ++ p.in_flight ++ p.tasks_) ∧
  ((∃ w ∈ p.workers_, w = Worker.exited) → p.stop_ = true ∧ p.tasks_ = [])

/-- A run of a two-thread pool: two tasks accepted, one taken, stop requested, a
third `enqueue` rejected, the other task taken, both finished, both workers
returned. -/
def sample_actions : List (Action Nat) :=
  [.enqueue 1, .enqueue 2, .take 0, .stop, .enqueue 3, .take 1, .finish 1, .finish 0,
    .exit 0, .exit 1]

/-- The state `sample_actions` ends in. -/
def sample_final : ThreadPool Nat :=
  { workers_ := [.exited, .exited]
    tasks_ := []
    stop_ := true
    accepted := [1, 2]
    completed := [2, 1] }

/-! ## Theorems: scoring -/

theorem and_syn_ne_zero (n : Nat) : (n &&& SYN_FLAG ≠ 0) ↔ n.testBit 1 = true := by
  have h := Nat.and_two_pow n 1
  simp only [pow_one] at h
  rw [SYN_FLAG, h]
  cases n.testBit 1 <;> simp

theorem and_ack_ne_zero (n : Nat) : (n &&& ACK_FLAG ≠ 0) ↔ n.testBit 4 = true := by
  have h := Nat.and_two_pow n 4
  norm_num at h
  rw [ACK_FLAG, h]
  cases n.testBit 4 <;> simp

theorem port_cond_eq (n : Nat) :
    decide (n ∈ SUSPICIOUS_PORTS) = decide (n ∈ [23, 1337, 4444, 6666, 6667, 9001, 31337]) := by
  simp only [SUSPICIOUS_PORTS, List.mem_cons, List.mem_singleton, List.not_mem_nil, or_false]
  congr 1
  apply propext
  constructor <;> intro h <;> omega

theorem syn_cond_eq (flags len : Nat) :
    (decide (flags &&& SYN_FLAG ≠ 0) && !decide (flags &&& ACK_FLAG ≠ 0) && decide (len < 8))
      = decide (flags.testBit 1 = true ∧ flags.testBit 4 = false ∧ len < 8) := by
  have h1 := and_syn_ne_zero flags
  have h2 := and_ack_ne_zero flags
  by_cases a : flags.testBit 1 = true <;> by_cases b : flags.testBit 4 = true <;>
    by_cases c : len < 8 <;> simp_all

theorem ttl_cond_eq (ttl : Nat) :
    (decide (ttl < 10) || decide (ttl = 255)) = decide (ttl < 10 ∨ ttl = 255) := by
  by_cases a : ttl < 10 <;> by_cases b : ttl = 255 <;> simp [a, b]

theorem run_rules_fst (t : List (Bool × ℚ × String)) (acc : ℚ × List String) :
    (run_rules t acc).1 =
      (t.filter fun r => r.1).foldl (fun s r => to_double (s + to_double r.2.1)) acc.1 := by
  induction t generalizing acc with
  | nil => rfl
  | cons r rest ih =>
    obtain ⟨c, w, txt⟩ := r
    cases c
    · simpa [run_rules, apply_rule] using ih acc
    · simpa [run_rules, apply_rule] using ih (to_double (acc.1 + to_double w), acc.2 ++ [txt])

theorem run_rules_snd (t : List (Bool × ℚ × String)) (acc : ℚ × List String) :
    (run_rules t acc).2 = acc.2 ++ (t.filter fun r => r.1).map fun r => r.2.2 := by
  induction t generalizing acc with
  | nil => simp [run_rules]
  | cons r rest ih =>
    obtain ⟨c, w, txt⟩ := r
    cases c
    · simpa [run_rules, apply_rule] using ih acc
    · simpa [run_rules, apply_rule] using ih (to_double (acc.1 + to_double w), acc.2 ++ [txt])

theorem score_rules_eq_run (E : Externals) (f : PacketFeatures) :
    score_rules E f = run_rules (rule_table E f) (0, []) := by
  simp only [score_rules, run_rules, rule_table, List.foldl_cons, List.foldl_nil, port_cond_eq,
    syn_cond_eq, ttl_cond_eq]

theorem score_rules_fst (E : Externals) (f : PacketFeatures) :
    (score_rules E f).1 = rounded_rule_sum E f := by
  rw [score_rules_eq_run, run_rules_fst]
  rfl

theorem score_rules_snd (E : Externals) (f : PacketFeatures) :
    (score_rules E f).2 = triggered_reasons E f := by
  rw [score_rules_eq_run, run_rules_snd]
  simp [triggered_reasons]

theorem rounded_rule_sum_eq (E : Externals) (f : PacketFeatures) :
    rounded_rule_sum E f = rounded_sum (weighted
      (decide (f.dst_port ∈ [23, 1337, 4444, 6666, 6667, 9001, 31337]))
      (decide (f.payload_entropy > 7.5))
      (decide (f.ttl < 10 ∨ f.ttl = 255))
      (decide (f.tcp_flags.testBit 1 = true ∧ f.tcp_flags.testBit 4 = false ∧ f.payload_len < 8))
      (decide (f.pkt_rate > 10000))
      (decide (f.payload_len > 65000))) := by
  have h : ∀ t : List (Bool × ℚ × String),
      (t.filter fun r => r.1).foldl (fun s r => to_double (s + to_double r.2.1)) 0 =
        rounded_sum (t.map fun r => (r.1, r.2.1)) := by
    intro t
    simp only [rounded_sum, List.filter_map, List.foldl_map]
    rfl
  rw [rounded_rule_sum, h]
  rfl

theorem rule_sum_eq (E : Externals) (f : PacketFeatures) :
    rule_sum E f = exact_sum (weighted
      (decide (f.dst_port ∈ [23, 1337, 4444, 6666, 6667, 9001, 31337]))
      (decide (f.payload_entropy > 7.5))
      (decide (f.ttl < 10 ∨ f.ttl = 255))
      (decide (f.tcp_flags.testBit 1 = true ∧ f.tcp_flags.testBit 4 = false ∧ f.payload_len < 8))
      (decide (f.pkt_rate > 10000))
      (decide (f.payload_len > 65000))) := by
  have h : ∀ t : List (Bool × ℚ × String),
      ((t.filter fun r => r.1).map fun r => r.2.1).sum =
        exact_sum (t.map fun r => (r.1, r.2.1)) := by
    intro t
    simp only [exact_sum, List.filter_map, List.map_map]
    rfl
  rw [rule_sum, h]
  rfl

theorem weighted_bounds : ∀ c1 c2 c3 c4 c5 c6 : Bool,
    0 ≤ rounded_sum (weighted c1 c2 c3 c4 c5 c6) ∧
    |min (rounded_sum (weighted c1 c2 c3 c4 c5 c6)) 1 -
      min 1 (exact_sum (weighted c1 c2 c3 c4 c5 c6))| ≤ 1 / 2 ^ 53 := by
  decide!


theorem intercalate_go_eq (s : String) (l : List String) (acc : String) :
    String.intercalate.go acc s l = l.foldl (fun desc x => desc ++ s ++ x) acc := by
  induction l generalizing acc with
  | nil => simp [String.intercalate.go]
  | cons a as ih => simp [String.intercalate.go, ih]

theorem join_reasons_eq (l : List String) : join_reasons l = "; ".intercalate l := by
  cases l with
  | nil => rfl
  | cons a as => simp [join_reasons, String.intercalate, intercalate_go_eq]


theorem score_score_eq (E : Externals) (f : PacketFeatures) :
    (score E f).score = min 1 (rounded_rule_sum E f) := by
  have h : (score E f).score = min (score_rules E f).1 1.0 := rfl
  rw [h, score_rules_fst, min_comm]
  norm_num

theorem rounded_rule_sum_nonneg (E : Externals) (f : PacketFeatures) :
    0 ≤ rounded_rule_sum E f := by
  rw [rounded_rule_sum_eq]
  exact (weighted_bounds _ _ _ _ _ _).1

theorem severity_rank_label (s : ℚ) :
    severity_rank (severity_label s) =
      some (if s ≥ 0.75 then 3 else if s ≥ 0.50 then 2 else if s ≥ 0.25 then 1 else 0) := by
  unfold severity_label
  split_ifs <;> simp [severity_rank]

theorem severity_rank_mono (s₁ s₂ : ℚ) (h : s₁ ≤ s₂) :
    ∃ a b, severity_rank (severity_label s₁) = some a ∧
      severity_rank (severity_label s₂) = some b ∧ a ≤ b := by
  refine ⟨_, _, severity_rank_label s₁, severity_rank_label s₂, ?_⟩
  split_ifs <;> first | omega | (exfalso; linarith)

theorem syn_probe_sum (E : Externals) :
    rounded_rule_sum E syn_probe = rounded_sum (weighted true false true true false false) := by
  rw [rounded_rule_sum_eq]
  have h1 : decide (syn_probe.dst_port ∈ [23, 1337, 4444, 6666, 6667, 9001, 31337]) = true := by
    decide
  have h2 : decide (syn_probe.payload_entropy > 7.5) = false := by decide!
  have h3 : decide (syn_probe.ttl < 10 ∨ syn_probe.ttl = 255) = true := by decide
  have h4 : decide (syn_probe.tcp_flags.testBit 1 = true ∧
      syn_probe.tcp_flags.testBit 4 = false ∧ syn_probe.payload_len < 8) = true := by decide
  have h5 : decide (syn_probe.pkt_rate > 10000) = false := by decide!
  have h6 : decide (syn_probe.payload_len > 65000) = false := by decide
  rw [h1, h2, h3, h4, h5, h6]

theorem threshold_probe_sum (E : Externals) :
    rounded_rule_sum E threshold_probe =
      rounded_sum (weighted true false true false true true) := by
  rw [rounded_rule_sum_eq]
  have h1 : decide (threshold_probe.dst_port ∈ [23, 1337, 4444, 6666, 6667, 9001, 31337])
      = true := by decide
  have h2 : decide (threshold_probe.payload_entropy > 7.5) = false := by decide!
  have h3 : decide (threshold_probe.ttl < 10 ∨ threshold_probe.ttl = 255) = true := by decide
  have h4 : decide (threshold_probe.tcp_flags.testBit 1 = true ∧
      threshold_probe.tcp_flags.testBit 4 = false ∧ threshold_probe.payload_len < 8)
      = false := by decide
  have h5 : decide (threshold_probe.pkt_rate > 10000) = true := by decide!
  have h6 : decide (threshold_probe.payload_len > 65000) = true := by decide
  rw [h1, h2, h3, h4, h5, h6]

theorem threshold_probe_exact (E : Externals) :
    rule_sum E threshold_probe = exact_sum (weighted true false true false true true) := by
  rw [rule_sum_eq]
  have h1 : decide (threshold_probe.dst_port ∈ [23, 1337, 4444, 6666, 6667, 9001, 31337])
      = true := by decide
  have h2 : decide (threshold_probe.payload_entropy > 7.5) = false := by decide!
  have h3 : decide (threshold_probe.ttl < 10 ∨ threshold_probe.ttl = 255) = true := by decide
  have h4 : decide (threshold_probe.tcp_flags.testBit 1 = true ∧
      threshold_probe.tcp_flags.testBit 4 = false ∧ threshold_probe.payload_len < 8)
      = false := by decide
  have h5 : decide (threshold_probe.pkt_rate > 10000) = true := by decide!
  have h6 : decide (threshold_probe.payload_len > 65000) = true := by decide
  rw [h1, h2, h3, h4, h5, h6]

theorem severity_eq_label (E : Externals) (f : PacketFeatures) :
    (score E f).severity = severity_label (score E f).score := rfl

/-- C3 (as the code has it): the score of `score` is the sum of the contributions
of the rules that hold, each looked at on its own, added in table order as doubles
(each sum rounded to the nearest double) and clamped to 1; it lies within
`2 ^ -53` of the exact decimal sum clamped to 1; and the packet with destination
port 4444, ttl 5, flags 0x02, no payload and rate 0 has as score the double
nearest to 0.70 and severity "high". -/
theorem score_eq_rounded_rule_sum (E : Externals) (f : PacketFeatures) :
    (score E f).score = min 1 (rounded_rule_sum E f) ∧
    |(score E f).score - min 1 (rule_sum E f)| ≤ 1 / 2 ^ 53 ∧
    (score E syn_probe).score = to_double 0.70 ∧
    (score E syn_probe).severity = "high" := by
  have hs : (score E syn_probe).score = to_double 0.70 := by
    rw [score_score_eq, syn_probe_sum]
    decide!
  refine ⟨score_score_eq E f, ?_, hs, ?_⟩
  · rw [score_score_eq, rounded_rule_sum_eq, rule_sum_eq, min_comm]
    exact (weighted_bounds _ _ _ _ _ _).2
  · rw [severity_eq_label, hs]
    decide!

/-- C3 fails as worded: for destination port 23, ttl 5, rate 20000 and payload
length 65001 the contributions 0.30, 0.15, 0.20 and 0.10 add up to 0.75 exactly,
but the score of the code is the double just below 0.75, and the severity is
"high" where 0.75 is labelled "critical". -/
theorem score_not_exact_rule_sum :
    (score sample_externals threshold_probe).score ≠
      min 1 (rule_sum sample_externals threshold_probe) ∧
    min 1 (rule_sum sample_externals threshold_probe) = 0.75 ∧
    (score sample_externals threshold_probe).score = 0.75 - 1 / 2 ^ 53 ∧
    (score sample_externals threshold_probe).severity = "high" ∧
    severity_label 0.75 = "critical" := by
  have hs : (score sample_externals threshold_probe).score = 0.75 - 1 / 2 ^ 53 := by
    rw [score_score_eq, threshold_probe_sum]
    decide!
  have he : min 1 (rule_sum sample_externals threshold_probe) = 0.75 := by
    rw [threshold_probe_exact]
    decide!
  refine ⟨?_, he, hs, ?_, by decide!⟩
  · rw [hs, he]
    decide!
  · rw [severity_eq_label, hs]
    decide!

/-- C5: the score of a result lies between 0 and 1, its severity is "critical"
from 0.75 on, else "high" from 0.50 on, else "medium" from 0.25 on, else "low",
and of two results the one with the larger score has the label that is at least
as high in the order low, medium, high, critical. -/
theorem score_range_severity_step (E : Externals) (f g : PacketFeatures)
    (h : (score E f).score ≤ (score E g).score) :
    (0 ≤ (score E f).score ∧ (score E f).score ≤ 1) ∧
    ((score E f).severity =
      if (score E f).score ≥ 0.75 then "critical"
      else if (score E f).score ≥ 0.50 then "high"
      else if (score E f).score ≥ 0.25 then "medium"
      else "low") ∧
    ∃ a b, severity_rank (score E f).severity = some a ∧
      severity_rank (score E g).severity = some b ∧ a ≤ b := by
  refine ⟨⟨?_, ?_⟩, rfl, severity_rank_mono _ _ h⟩
  · rw [score_score_eq]
    exact le_min zero_le_one (rounded_rule_sum_nonneg E f)
  · rw [score_score_eq]
    exact min_le_left _ _

theorem score_of_default (E : Externals) (f : PacketFeatures)
    (h : rounded_rule_sum E f = rounded_sum (weighted false false false false false false)) :
    (score E f).score = 0 := by
  rw [score_score_eq, h]
  decide!

theorem score_of_port (E : Externals) (f : PacketFeatures)
    (h : rounded_rule_sum E f = rounded_sum (weighted true false false false false false)) :
    (score E f).score = to_double 0.30 := by
  rw [score_score_eq, h]
  decide!

theorem default_sum (E : Externals) :
    rounded_rule_sum E {} = rounded_sum (weighted false false false false false false) := by
  rw [rounded_rule_sum_eq]
  have h2 : decide (({} : PacketFeatures).payload_entropy > 7.5) = false := by decide!
  have h5 : decide (({} : PacketFeatures).pkt_rate > 10000) = false := by decide!
  rw [h2, h5]
  rfl

theorem port_4444_sum (E : Externals) :
    rounded_rule_sum E { dst_port := 4444 } =
      rounded_sum (weighted true false false false false false) := by
  rw [rounded_rule_sum_eq]
  have h2 : decide (({ dst_port := 4444 } : PacketFeatures).payload_entropy > 7.5) = false := by
    decide!
  have h5 : decide (({ dst_port := 4444 } : PacketFeatures).pkt_rate > 10000) = false := by
    decide!
  rw [h2, h5]
  rfl

theorem score_range_severity_step_witness :
    (score sample_externals {}).score ≤ (score sample_externals { dst_port := 4444 }).score ∧
    (0 ≤ (score sample_externals {}).score ∧ (score sample_externals {}).score ≤ 1) ∧
    (score sample_externals {}).severity = "low" ∧
    ∃ a b, severity_rank (score sample_externals {}).severity = some a ∧
      severity_rank (score sample_externals { dst_port := 4444 }).severity = some b ∧ a ≤ b := by
  have h0 : (score sample_externals {}).score = 0 :=
    score_of_default _ _ (default_sum sample_externals)
  have h1 : (score sample_externals {}).score ≤
      (score sample_externals { dst_port := 4444 }).score := by
    rw [h0, score_of_port _ _ (port_4444_sum sample_externals)]
    decide!
  have key := score_range_severity_step sample_externals {} { dst_port := 4444 } h1
  refine ⟨h1, key.1, ?_, key.2.2⟩
  rw [key.2.1, h0]
  norm_num

/-- C9 (as the code has it): with no rule triggered the description is the
sentence "No anomalies detected."; otherwise it is "Detected: ", then the reason
strings of the triggered rules in table order with "; " between them, then a
full stop. -/
theorem description_eq (E : Externals) (f : PacketFeatures) :
    (score E f).description =
      if triggered_reasons E f = [] then "No anomalies detected."
      else "Detected: " ++ "; ".intercalate (triggered_reasons E f) ++ "." := by
  simp only [score, score_rules_snd, join_reasons_eq, List.isEmpty_iff]

/-- C9 fails as worded: for destination port 23 the description is not the bare
list of reason strings separated by "; ". -/
theorem description_not_bare_concatenation :
    (score sample_externals { dst_port := 23 }).description ≠
      "; ".intercalate (triggered_reasons sample_externals { dst_port := 23 }) := by
  norm_num [score, score_rules, apply_rule, SUSPICIOUS_PORTS, SYN_FLAG, ACK_FLAG, join_reasons,
    triggered_reasons, rule_table]
  decide

/-! ## Theorems: the poll cycle and `process_message` -/

theorem find_payload_eq (fields : List RedisReply) :
    find_payload fields = ((entry_fields fields).lookup "payload").getD "" := by
  induction fields using find_payload.induct with
  | case1 k v rest h =>
    simp [find_payload, entry_fields, h, List.lookup]
  | case2 k v rest h ih =>
    have h2 : ("payload" == k.str) = false := by
      simp only [beq_eq_false_iff_ne, ne_eq]
      exact fun e => h e.symm
    simp [find_payload, entry_fields, h, List.lookup, h2, ih]
  | case3 fields h =>
    match fields with
    | [] => simp [find_payload, entry_fields]
    | [_] => simp [find_payload, entry_fields]
    | _ :: _ :: _ => exact absurd rfl (h _ _ _)

theorem dispatch_message_eq (msg : RedisReply) : dispatch_message msg = expected_task msg := by
  unfold dispatch_message expected_task
  rcases msg.element with _ | ⟨id, _ | ⟨fields, rest⟩⟩
  · rfl
  · rfl
  · simp only [find_payload_eq, String.isEmpty_iff]
    cases (entry_fields fields.element).lookup "payload" <;> simp

theorem poll_cycle_eq (claim_reply read_reply : Option RedisReply) :
    poll_cycle claim_reply read_reply = (reply_entries read_reply).filterMap expected_task := by
  have hfun : dispatch_message = expected_task := funext dispatch_message_eq
  match read_reply with
  | none => rfl
  | some (.mk type str []) =>
    simp [poll_cycle, dispatch_read_reply, reply_entries, RedisReply.elements,
      RedisReply.element]
  | some (.mk type str (stream_entry :: rest)) =>
    simp only [poll_cycle, dispatch_read_reply, reply_entries, RedisReply.elements,
      RedisReply.element, RedisReply.type, List.length_cons, hfun]
    by_cases ht : type = REDIS_REPLY_ARRAY
    · simp only [ht, true_and, gt_iff_lt, Nat.zero_lt_succ, if_true]
      split <;> simp_all
    · simp [ht]

theorem process_message_cases (E : Externals) (post_ok : Bool) (stream_id payload : String) :
    (∃ r, analyze E payload = .ok r ∧ r.score > 0 ∧ post_ok = false ∧
      process_message E post_ok stream_id payload =
        [.post r, .log ("[worker] POST failed for stream_id=" ++ stream_id)]) ∨
    (∃ r, analyze E payload = .ok r ∧ r.score > 0 ∧ post_ok = true ∧
      process_message E post_ok stream_id payload = [.post r, .xack stream_id]) ∨
    (∃ r, analyze E payload = .ok r ∧ ¬ r.score > 0 ∧
      process_message E post_ok stream_id payload = [.xack stream_id]) ∨
    (∃ e, analyze E payload = .error e ∧
      process_message E post_ok stream_id payload =
        [.log ("[worker] JSON parse error for " ++ stream_id), .xack stream_id]) := by
  unfold process_message
  cases h : analyze E payload with
  | error e => right; right; right; exact ⟨e, rfl, rfl⟩
  | ok r =>
    by_cases hs : r.score > 0
    · have hs2 : r.score > 0.0 := by norm_num; exact hs
      cases post_ok with
      | false => left; exact ⟨r, rfl, hs, rfl, by simp [hs2]⟩
      | true => right; left; exact ⟨r, rfl, hs, rfl, by simp [hs2]⟩
    · have hs2 : ¬ r.score > 0.0 := by norm_num; exact not_lt.mp hs
      right; right; left; exact ⟨r, rfl, hs, by simp only [hs2, if_false]⟩

/-- C1: a `process_message` task issues no acknowledge when it calls the sink and
the sink reports failure, and exactly one acknowledge otherwise; an acknowledge is
always for the task's own stream id; the sink is called at most once, and exactly
when the payload parsed, its features were extracted and the score is positive
(so not for a malformed payload and not for score 0). -/
theorem process_message_acknowledges (E : Externals) (post_ok : Bool)
    (stream_id payload : String) :
    ((process_message E post_ok stream_id payload).countP Effect.is_xack =
      if (process_message E post_ok stream_id payload).any Effect.is_post && !post_ok
      then 0 else 1) ∧
    (∀ e ∈ process_message E post_ok stream_id payload,
      e.is_xack = true → e = Effect.xack stream_id) ∧
    (process_message E post_ok stream_id payload).countP Effect.is_post ≤ 1 ∧
    ((process_message E post_ok stream_id payload).any Effect.is_post = true ↔
      ∃ r, analyze E payload = .ok r ∧ r.score > 0) := by
  rcases process_message_cases E post_ok stream_id payload with
    ⟨r, ha, hs, hp, h⟩ | ⟨r, ha, hs, hp, h⟩ | ⟨r, ha, hs, h⟩ | ⟨e, ha, h⟩
  · rw [h, hp]
    refine ⟨by simp [Effect.is_xack, Effect.is_post], ?_, by simp [Effect.is_post], ?_⟩
    · intro e he hx
      simp at he
      rcases he with rfl | rfl <;> simp [Effect.is_xack] at hx
    · simp only [List.any_cons, Effect.is_post, Bool.true_or, true_iff]
      exact ⟨r, ha, hs⟩
  · rw [h, hp]
    refine ⟨by simp [Effect.is_xack, Effect.is_post], ?_, by simp [Effect.is_post], ?_⟩
    · intro e he hx
      simp at he
      rcases he with rfl | rfl
      · simp [Effect.is_xack] at hx
      · rfl
    · simp only [List.any_cons, Effect.is_post, Bool.true_or, true_iff]
      exact ⟨r, ha, hs⟩
  · rw [h]
    refine ⟨by simp [Effect.is_xack, Effect.is_post], ?_, by simp [Effect.is_post], ?_⟩
    · intro e he hx
      simp at he
      exact he
    · simp only [List.any_cons, Effect.is_post, List.any_nil, Bool.or_self, Bool.false_eq_true,
        false_iff, not_exists, not_and]
      intro r2 hr2
      rw [ha] at hr2
      cases hr2
      exact hs
  · rw [h]
    refine ⟨by simp [Effect.is_xack, Effect.is_post], ?_, by simp [Effect.is_post], ?_⟩
    · intro e2 he hx
      simp at he
      rcases he with rfl | rfl
      · simp [Effect.is_xack] at hx
      · rfl
    · simp only [List.any_cons, Effect.is_post, List.any_nil, Bool.or_self, Bool.false_eq_true,
        false_iff, not_exists, not_and]
      intro r2 hr2
      rw [ha] at hr2
      cases hr2

/-- C2 on the code: whatever `XAUTOCLAIM` returns, the cycle enqueues the same
tasks as with no claim reply at all; with one reclaimed entry carrying a payload
and a null or empty read reply nothing is enqueued, while the same entry arriving
in a read reply is enqueued. -/
theorem reclaimed_entries_not_dispatched :
    (∀ claim_reply read_reply, poll_cycle claim_reply read_reply = poll_cycle none read_reply) ∧
    poll_cycle (some sample_claim_reply) none = [] ∧
    poll_cycle (some sample_claim_reply) (some (.mk REDIS_REPLY_ARRAY "" [])) = [] ∧
    poll_cycle none (some (.mk REDIS_REPLY_ARRAY "" [sample_claim_reply])) =
      [{ stream_id := "1-0", payload := "\x7b\"dst_port\":23\x7d" }] := by
  refine ⟨fun _ _ => rfl, rfl, by decide, by decide⟩

theorem process_message_xack (E : Externals) (post_ok : Bool) (stream_id payload : String)
    (e : Effect) (he : e ∈ process_message E post_ok stream_id payload)
    (hx : e.is_xack = true) : e = Effect.xack stream_id := by
  rcases process_message_cases E post_ok stream_id payload with
    ⟨r, _, _, _, h⟩ | ⟨r, _, _, _, h⟩ | ⟨r, _, _, h⟩ | ⟨e, _, h⟩ <;>
  · rw [h] at he
    simp at he
    rcases he with rfl | rfl <;> first | rfl | (simp [Effect.is_xack] at hx)

/-- C6: the tasks a cycle enqueues are, in reply order, one per entry of the read
reply that has a payload field with a non-empty value, each with that entry's id
and payload, and nothing else; and every acknowledge issued by the tasks of the
cycle is for the id of such an entry, so an entry whose payload is absent or empty
is neither dispatched nor acknowledged. -/
theorem read_reply_dispatch (E : Externals) (sink : Task → Bool)
    (claim_reply read_reply : Option RedisReply) :
    poll_cycle claim_reply read_reply = (reply_entries read_reply).filterMap expected_task ∧
    ∀ e ∈ cycle_effects E sink claim_reply read_reply, e.is_xack = true →
      ∃ entry ∈ reply_entries read_reply, ∃ t,
        expected_task entry = some t ∧ e = Effect.xack t.stream_id := by
  refine ⟨poll_cycle_eq claim_reply read_reply, ?_⟩
  intro e he hx
  simp only [cycle_effects, List.mem_flatMap] at he
  obtain ⟨t, ht, het⟩ := he
  rw [poll_cycle_eq, List.mem_filterMap] at ht
  obtain ⟨entry, hentry, hexp⟩ := ht
  exact ⟨entry, hentry, t, hexp, process_message_xack E (sink t) _ _ e het hx⟩

/-! ## Theorems: `extract_features` -/

theorem get_string_ok (j : Json) : (∃ x, get_string j = .ok x) ↔ j.is_string = true := by
  cases j <;> simp [get_string, Json.is_string]

theorem get_int_ok (E : Externals) (j : Json) :
    (∃ x, get_int E j = .ok x) ↔ j.is_arithmetic = true := by
  cases j <;> simp [get_int, Json.is_arithmetic]

theorem get_unsigned_ok (E : Externals) (j : Json) :
    (∃ x, get_unsigned E j = .ok x) ↔ j.is_arithmetic = true := by
  cases j <;> simp [get_unsigned, Json.is_arithmetic]

theorem get_double_ok (j : Json) : (∃ x, get_double j = .ok x) ↔ j.is_number = true := by
  cases j <;> simp [get_double, Json.is_number]

theorem value_field_ok {α : Type} (get : Json → Except JsonException α) (ok : Json → Bool)
    (hget : ∀ j, (∃ x, get j = .ok x) ↔ ok j = true)
    (kvs : List (String × Json)) (key : String) (d : α) :
    (∃ x, value get (.obj kvs) key d = .ok x) ↔ field_ok kvs key ok = true := by
  rcases hl : kvs.lookup key with _ | j <;> simp [value, field_ok, hl, hget]

theorem value_ok_field {α : Type} (get : Json → Except JsonException α) (ok : Json → Bool)
    (hget : ∀ j, (∃ x, get j = .ok x) ↔ ok j = true)
    (kvs : List (String × Json)) (key : String) (d x : α)
    (h : value get (.obj kvs) key d = .ok x) : field_ok kvs key ok = true :=
  (value_field_ok get ok hget kvs key d).mp ⟨x, h⟩

theorem value_default {α : Type} (get : Json → Except JsonException α)
    (kvs : List (String × Json)) (key : String) (d x : α)
    (h : value get (.obj kvs) key d = .ok x) (hl : kvs.lookup key = none) : x = d := by
  simp only [value, hl] at h
  cases h
  rfl

theorem value_present {α : Type} (get : Json → Except JsonException α)
    (kvs : List (String × Json)) (key : String) (d x : α) (j : Json)
    (h : value get (.obj kvs) key d = .ok x) (hl : kvs.lookup key = some j) : get j = .ok x := by
  simp only [value, hl] at h
  exact h

theorem entropy_step_ok (E : Externals) (kvs : List (String × Json)) :
    (∃ x, entropy_step E (.obj kvs) = .ok x) ↔
      field_ok kvs "payload_hex" Json.is_string = true := by
  rcases hl : kvs.lookup "payload_hex" with _ | j
  · simp [entropy_step, contains, at_key, field_ok, hl, pure, Except.pure]
  · cases j <;>
      simp [entropy_step, contains, at_key, field_ok, hl, get_string, Json.is_string, Except.map]

theorem entropy_step_default (E : Externals) (kvs : List (String × Json)) (x : ℚ)
    (h : entropy_step E (.obj kvs) = .ok x) (hl : kvs.lookup "payload_hex" = none) : x = 0 := by
  simp [entropy_step, contains, hl, pure, Except.pure] at h
  exact h.symm

theorem extract_features_of_steps (E : Externals) (kvs : List (String × Json))
    (x1 x2 x3 : String) (x4 x5 : Int) (x6 : Nat) (x7 : Int) (x8 : Nat) (x9 x10 : ℚ)
    (h1 : value get_string (.obj kvs) "src_ip" "0.0.0.0" = .ok x1)
    (h2 : value get_string (.obj kvs) "dst_ip" "0.0.0.0" = .ok x2)
    (h3 : value get_string (.obj kvs) "protocol" "UNKNOWN" = .ok x3)
    (h4 : value (get_int E) (.obj kvs) "src_port" 0 = .ok x4)
    (h5 : value (get_int E) (.obj kvs) "dst_port" 0 = .ok x5)
    (h6 : value (get_unsigned E) (.obj kvs) "payload_len" 0 = .ok x6)
    (h7 : value (get_int E) (.obj kvs) "ttl" 64 = .ok x7)
    (h8 : value (get_unsigned E) (.obj kvs) "tcp_flags" 0 = .ok x8)
    (h9 : entropy_step E (.obj kvs) = .ok x9)
    (h10 : value get_double (.obj kvs) "pkt_rate" 0 = .ok x10) :
    extract_features E (.obj kvs) = .ok
      { source_ip := x1, destination_ip := x2, protocol := x3,
        src_port := (x4 % 2 ^ 16).toNat, dst_port := (x5 % 2 ^ 16).toNat, payload_len := x6,
        ttl := (x7 % 2 ^ 8).toNat, tcp_flags := x8 % 2 ^ 8, payload_entropy := x9,
        pkt_rate := x10 } := by
  unfold extract_features
  simp only [h1, h2, h3, h4, h5, h6, h7, h8, h10, bind, Except.bind]
  unfold entropy_step at h9
  split
  · rename_i hc
    simp only [hc, if_true] at h9
    simp only [h9]
    rfl
  · rename_i hc
    simp only [hc] at h9
    simp only [Bool.false_eq_true, if_false] at h9
    simp only [h9]
    rfl

theorem extract_features_obj_ok (E : Externals) (kvs : List (String × Json))
    (f : PacketFeatures) (h : extract_features E (.obj kvs) = .ok f) :
    convertible (.obj kvs) = true := by
  unfold extract_features at h
  simp only [convertible]
  rcases h1 : value get_string (.obj kvs) "src_ip" "0.0.0.0" with e | x1
  · simp [h1, bind, Except.bind] at h
  rw [value_ok_field _ _ get_string_ok _ _ _ _ h1]
  rcases h2 : value get_string (.obj kvs) "dst_ip" "0.0.0.0" with e | x2
  · simp [h1, h2, bind, Except.bind] at h
  rw [value_ok_field _ _ get_string_ok _ _ _ _ h2]
  rcases h3 : value get_string (.obj kvs) "protocol" "UNKNOWN" with e | x3
  · simp [h1, h2, h3, bind, Except.bind] at h
  rw [value_ok_field _ _ get_string_ok _ _ _ _ h3]
  rcases h4 : value (get_int E) (.obj kvs) "src_port" 0 with e | x4
  · simp [h1, h2, h3, h4, bind, Except.bind] at h
  rw [value_ok_field _ _ (get_int_ok E) _ _ _ _ h4]
  rcases h5 : value (get_int E) (.obj kvs) "dst_port" 0 with e | x5
  · simp [h1, h2, h3, h4, h5, bind, Except.bind] at h
  rw [value_ok_field _ _ (get_int_ok E) _ _ _ _ h5]
  rcases h6 : value (get_unsigned E) (.obj kvs) "payload_len" 0 with e | x6
  · simp [h1, h2, h3, h4, h5, h6, bind, Except.bind] at h
  rw [value_ok_field _ _ (get_unsigned_ok E) _ _ _ _ h6]
  rcases h7 : value (get_int E) (.obj kvs) "ttl" 64 with e | x7
  · simp [h1, h2, h3, h4, h5, h6, h7, bind, Except.bind] at h
  rw [value_ok_field _ _ (get_int_ok E) _ _ _ _ h7]
  rcases h8 : value (get_unsigned E) (.obj kvs) "tcp_flags" 0 with e | x8
  · simp [h1, h2, h3, h4, h5, h6, h7, h8, bind, Except.bind] at h
  rw [value_ok_field _ _ (get_unsigned_ok E) _ _ _ _ h8]
  rcases h9 : entropy_step E (.obj kvs) with e | x9
  · exfalso
    unfold entropy_step at h9
    simp only [h1, h2, h3, h4, h5, h6, h7, h8, bind, Except.bind] at h
    split at h9
    · rename_i hc
      simp [hc, h9] at h
    · simp [pure, Except.pure] at h9
  rw [(entropy_step_ok E kvs).mp ⟨x9, h9⟩]
  rcases h10 : value get_double (.obj kvs) "pkt_rate" 0 with e | x10
  · exfalso
    simp only [h1, h2, h3, h4, h5, h6, h7, h8, h10, bind, Except.bind] at h
    split at h
    · split at h <;> cases h
    · split at h <;> cases h
  rw [value_ok_field _ _ get_double_ok _ _ _ _ h10]
  rfl

theorem extract_features_steps (E : Externals) (kvs : List (String × Json))
    (hc : convertible (.obj kvs) = true) :
    ∃ x1 x2 x3 x4 x5 x6 x7 x8 x9 x10,
      value get_string (.obj kvs) "src_ip" "0.0.0.0" = .ok x1 ∧
      value get_string (.obj kvs) "dst_ip" "0.0.0.0" = .ok x2 ∧
      value get_string (.obj kvs) "protocol" "UNKNOWN" = .ok x3 ∧
      value (get_int E) (.obj kvs) "src_port" 0 = .ok x4 ∧
      value (get_int E) (.obj kvs) "dst_port" 0 = .ok x5 ∧
      value (get_unsigned E) (.obj kvs) "payload_len" 0 = .ok x6 ∧
      value (get_int E) (.obj kvs) "ttl" 64 = .ok x7 ∧
      value (get_unsigned E) (.obj kvs) "tcp_flags" 0 = .ok x8 ∧
      entropy_step E (.obj kvs) = .ok x9 ∧
      value get_double (.obj kvs) "pkt_rate" 0 = .ok x10 ∧
      extract_features E (.obj kvs) = .ok
        { source_ip := x1, destination_ip := x2, protocol := x3,
          src_port := (x4 % 2 ^ 16).toNat, dst_port := (x5 % 2 ^ 16).toNat, payload_len := x6,
          ttl := (x7 % 2 ^ 8).toNat, tcp_flags := x8 % 2 ^ 8, payload_entropy := x9,
          pkt_rate := x10 } := by
  simp only [convertible, Bool.and_eq_true] at hc
  obtain ⟨⟨⟨⟨⟨⟨⟨⟨⟨c1, c2⟩, c3⟩, c4⟩, c5⟩, c6⟩, c7⟩, c8⟩, c9⟩, c10⟩ := hc
  obtain ⟨x1, h1⟩ := (value_field_ok get_string _ get_string_ok kvs "src_ip" "0.0.0.0").mpr c1
  obtain ⟨x2, h2⟩ := (value_field_ok get_string _ get_string_ok kvs "dst_ip" "0.0.0.0").mpr c2
  obtain ⟨x3, h3⟩ := (value_field_ok get_string _ get_string_ok kvs "protocol" "UNKNOWN").mpr c3
  obtain ⟨x4, h4⟩ := (value_field_ok (get_int E) _ (get_int_ok E) kvs "src_port" 0).mpr c4
  obtain ⟨x5, h5⟩ := (value_field_ok (get_int E) _ (get_int_ok E) kvs "dst_port" 0).mpr c5
  obtain ⟨x6, h6⟩ :=
    (value_field_ok (get_unsigned E) _ (get_unsigned_ok E) kvs "payload_len" 0).mpr c6
  obtain ⟨x7, h7⟩ := (value_field_ok (get_int E) _ (get_int_ok E) kvs "ttl" 64).mpr c7
  obtain ⟨x8, h8⟩ :=
    (value_field_ok (get_unsigned E) _ (get_unsigned_ok E) kvs "tcp_flags" 0).mpr c8
  obtain ⟨x9, h9⟩ := (entropy_step_ok E kvs).mpr c9
  obtain ⟨x10, h10⟩ := (value_field_ok get_double _ get_double_ok kvs "pkt_rate" 0).mpr c10
  exact ⟨x1, x2, x3, x4, x5, x6, x7, x8, x9, x10, h1, h2, h3, h4, h5, h6, h7, h8, h9, h10,
    extract_features_of_steps E kvs x1 x2 x3 x4 x5 x6 x7 x8 x9 x10 h1 h2 h3 h4 h5 h6 h7 h8 h9 h10⟩

theorem extract_features_not_obj (E : Externals) (pkt : Json)
    (h : ∀ kvs, pkt ≠ .obj kvs) : extract_features E pkt = .error (.type_error 306) := by
  unfold extract_features
  cases pkt with
  | obj kvs => exact absurd rfl (h kvs)
  | _ => rfl

theorem extract_features_ok_iff (E : Externals) (pkt : Json) :
    (∃ f, extract_features E pkt = .ok f) ↔ convertible pkt = true := by
  by_cases ho : ∃ kvs, pkt = .obj kvs
  · obtain ⟨kvs, rfl⟩ := ho
    constructor
    · rintro ⟨f, hf⟩
      exact extract_features_obj_ok E kvs f hf
    · intro hc
      obtain ⟨x1, x2, x3, x4, x5, x6, x7, x8, x9, x10, -, -, -, -, -, -, -, -, -, -, h⟩ :=
        extract_features_steps E kvs hc
      exact ⟨_, h⟩
  · have hn : ∀ kvs, pkt ≠ .obj kvs := fun kvs e => ho ⟨kvs, e⟩
    rw [extract_features_not_obj E pkt hn]
    constructor
    · rintro ⟨f, hf⟩
      cases hf
    · intro hc
      cases pkt <;> simp [convertible] at hc
      exact absurd rfl (hn _)

theorem wrap_int32_mod16 (n : Int) : wrap_int32 n % 2 ^ 16 = n % 2 ^ 16 := by
  unfold wrap_int32
  omega

theorem wrap_int32_mod8 (n : Int) : wrap_int32 n % 2 ^ 8 = n % 2 ^ 8 := by
  unfold wrap_int32
  omega

/-- C4 (as the code has it): `extract_features` returns features exactly for the
objects whose present fields have a type the conversion accepts, and raises a
JSON exception for every other value; on success a missing field has its default
and a present integer is reduced modulo the width of its field. -/
theorem extract_features_convertible (E : Externals) (pkt : Json) :
    ((∃ f, extract_features E pkt = .ok f) ↔ convertible pkt = true) ∧
    ∀ kvs f, pkt = .obj kvs → extract_features E pkt = .ok f →
      (kvs.lookup "src_ip" = none → f.source_ip = "0.0.0.0") ∧
      (kvs.lookup "dst_ip" = none → f.destination_ip = "0.0.0.0") ∧
      (kvs.lookup "protocol" = none → f.protocol = "UNKNOWN") ∧
      (kvs.lookup "src_port" = none → f.src_port = 0) ∧
      (kvs.lookup "dst_port" = none → f.dst_port = 0) ∧
      (kvs.lookup "payload_len" = none → f.payload_len = 0) ∧
      (kvs.lookup "ttl" = none → f.ttl = 64) ∧
      (kvs.lookup "tcp_flags" = none → f.tcp_flags = 0) ∧
      (kvs.lookup "payload_hex" = none → f.payload_entropy = 0) ∧
      (kvs.lookup "pkt_rate" = none → f.pkt_rate = 0) ∧
      (∀ n, kvs.lookup "src_port" = some (.int n) → f.src_port = (n % 2 ^ 16).toNat) ∧
      (∀ n, kvs.lookup "dst_port" = some (.int n) → f.dst_port = (n % 2 ^ 16).toNat) ∧
      (∀ n, kvs.lookup "payload_len" = some (.int n) → f.payload_len = (n % 2 ^ 32).toNat) ∧
      (∀ n, kvs.lookup "ttl" = some (.int n) → f.ttl = (n % 2 ^ 8).toNat) ∧
      (∀ n, kvs.lookup "tcp_flags" = some (.int n) → f.tcp_flags = (n % 2 ^ 8).toNat) := by
  refine ⟨extract_features_ok_iff E pkt, ?_⟩
  rintro kvs f rfl hf
  obtain ⟨x1, x2, x3, x4, x5, x6, x7, x8, x9, x10, h1, h2, h3, h4, h5, h6, h7, h8, h9, h10, h⟩ :=
    extract_features_steps E kvs (extract_features_obj_ok E kvs f hf)
  rw [hf] at h
  cases h
  refine ⟨?_, ?_, ?_, ?_, ?_, ?_, ?_, ?_, ?_, ?_, ?_, ?_, ?_, ?_, ?_⟩
  · exact fun hl => value_default _ _ _ _ _ h1 hl
  · exact fun hl => value_default _ _ _ _ _ h2 hl
  · exact fun hl => value_default _ _ _ _ _ h3 hl
  · intro hl
    simp [value_default _ _ _ _ _ h4 hl]
  · intro hl
    simp [value_default _ _ _ _ _ h5 hl]
  · exact fun hl => value_default _ _ _ _ _ h6 hl
  · intro hl
    simp [value_default _ _ _ _ _ h7 hl]
  · intro hl
    simp [value_default _ _ _ _ _ h8 hl]
  · exact fun hl => entropy_step_default E kvs _ h9 hl
  · exact fun hl => value_default _ _ _ _ _ h10 hl
  · intro n hl
    have := value_present _ _ _ _ _ _ h4 hl
    simp only [get_int, Except.ok.injEq] at this
    simp only [← this, wrap_int32_mod16]
  · intro n hl
    have := value_present _ _ _ _ _ _ h5 hl
    simp only [get_int, Except.ok.injEq] at this
    simp only [← this, wrap_int32_mod16]
  · intro n hl
    have := value_present _ _ _ _ _ _ h6 hl
    simp only [get_unsigned, Except.ok.injEq] at this
    exact this.symm
  · intro n hl
    have := value_present _ _ _ _ _ _ h7 hl
    simp only [get_int, Except.ok.injEq] at this
    simp only [← this, wrap_int32_mod8]
  · intro n hl
    have := value_present _ _ _ _ _ _ h8 hl
    simp only [get_unsigned, Except.ok.injEq] at this
    simp only [← this]
    omega

theorem extract_features_convertible_witness :
    ∃ f, extract_features sample_externals
        (.obj [("dst_port", .int 65559), ("ttl", .bool true)]) = .ok f ∧
      f.source_ip = "0.0.0.0" ∧ f.protocol = "UNKNOWN" ∧ f.payload_len = 0 ∧
      f.dst_port = 23 := by
  have key := extract_features_convertible sample_externals
    (.obj [("dst_port", .int 65559), ("ttl", .bool true)])
  obtain ⟨f, hf⟩ := key.1.mpr (by decide)
  have hp := key.2 _ f rfl hf
  refine ⟨f, hf, hp.1 rfl, hp.2.2.1 rfl, hp.2.2.2.2.2.1 rfl, ?_⟩
  have := hp.2.2.2.2.2.2.2.2.2.2.2.1 65559 rfl
  rw [this]
  decide

/-- C4 fails as worded: a parsed array and an object whose `ttl` is a string make
`extract_features` raise a type error, and a destination port outside 0..65535 is
reduced modulo 65536 instead of taking the default 0. -/
theorem extract_features_raises_and_wraps :
    extract_features sample_externals (.arr []) = .error (.type_error 306) ∧
    extract_features sample_externals (.obj [("ttl", .str "64")]) = .error (.type_error 302) ∧
    (extract_features sample_externals (.obj [("dst_port", .int 65559)])).toOption.map
      (fun f => f.dst_port) = some 23 := by
  refine ⟨rfl, rfl, ?_⟩
  decide

/-! ## Theorems: concrete runs of `process_message` and of the poll cycle -/

theorem analyze_port_23 :
    analyze sample_externals "\x7b\"dst_port\":23\x7d" =
      .ok (score sample_externals port_23_features) := by
  have hp : sample_externals.parse "\x7b\"dst_port\":23\x7d" =
      some (.obj [("dst_port", .int 23)]) := rfl
  have hx : extract_features sample_externals (.obj [("dst_port", .int 23)]) =
      .ok port_23_features := rfl
  simp only [analyze, hp, hx, Except.map]

theorem analyze_empty_object :
    analyze sample_externals "\x7b\x7d" = .ok (score sample_externals default_features) := rfl

theorem analyze_array : analyze sample_externals "[]" = .error (.type_error 306) := rfl

theorem analyze_garbage : analyze sample_externals "garbage" = .error .parse_error := rfl

theorem port_23_sum (E : Externals) :
    rounded_rule_sum E port_23_features =
      rounded_sum (weighted true false false false false false) := by
  rw [rounded_rule_sum_eq]
  have h2 : decide (port_23_features.payload_entropy > 7.5) = false := by decide!
  have h5 : decide (port_23_features.pkt_rate > 10000) = false := by decide!
  rw [h2, h5]
  rfl

theorem default_features_sum (E : Externals) :
    rounded_rule_sum E default_features =
      rounded_sum (weighted false false false false false false) := by
  rw [rounded_rule_sum_eq]
  have h2 : decide (default_features.payload_entropy > 7.5) = false := by decide!
  have h5 : decide (default_features.pkt_rate > 10000) = false := by decide!
  rw [h2, h5]
  rfl

theorem score_port_23_pos : (score sample_externals port_23_features).score > 0 := by
  rw [score_of_port _ _ (port_23_sum sample_externals)]
  decide!

theorem score_default_zero : (score sample_externals default_features).score = 0 :=
  score_of_default _ _ (default_features_sum sample_externals)

theorem process_message_acknowledges_witness :
    (process_message sample_externals false "1-0" "\x7b\"dst_port\":23\x7d").countP
      Effect.is_xack = 0 ∧
    (process_message sample_externals true "1-0" "\x7b\"dst_port\":23\x7d").countP
      Effect.is_xack = 1 ∧
    (process_message sample_externals false "1-0" "\x7b\x7d").countP Effect.is_xack = 1 ∧
    (process_message sample_externals false "1-0" "[]").countP Effect.is_xack = 1 ∧
    (process_message sample_externals false "1-0" "garbage").countP Effect.is_xack = 1 := by
  have k1 := process_message_acknowledges sample_externals false "1-0"
    "\x7b\"dst_port\":23\x7d"
  have k2 := process_message_acknowledges sample_externals true "1-0"
    "\x7b\"dst_port\":23\x7d"
  have k3 := process_message_acknowledges sample_externals false "1-0" "\x7b\x7d"
  have k4 := process_message_acknowledges sample_externals false "1-0" "[]"
  have k5 := process_message_acknowledges sample_externals false "1-0" "garbage"
  have a1 := k1.2.2.2.mpr ⟨_, analyze_port_23, score_port_23_pos⟩
  have a3 : (process_message sample_externals false "1-0" "\x7b\x7d").any Effect.is_post
      = false := by
    rw [Bool.eq_false_iff]
    intro h
    obtain ⟨r, ha, hs⟩ := k3.2.2.2.mp h
    rw [analyze_empty_object] at ha
    cases ha
    rw [score_default_zero] at hs
    exact lt_irrefl _ hs
  have a4 : (process_message sample_externals false "1-0" "[]").any Effect.is_post = false := by
    rw [Bool.eq_false_iff]
    intro h
    obtain ⟨r, ha, _⟩ := k4.2.2.2.mp h
    rw [analyze_array] at ha
    cases ha
  have a5 : (process_message sample_externals false "1-0" "garbage").any Effect.is_post
      = false := by
    rw [Bool.eq_false_iff]
    intro h
    obtain ⟨r, ha, _⟩ := k5.2.2.2.mp h
    rw [analyze_garbage] at ha
    cases ha
  refine ⟨?_, ?_, ?_, ?_, ?_⟩
  · rw [k1.1, a1]; rfl
  · rw [k2.1]; simp
  · rw [k3.1, a3]; rfl
  · rw [k4.1, a4]; rfl
  · rw [k5.1, a5]; rfl

theorem read_reply_dispatch_witness :
    (reply_entries (some sample_read_reply)).length = 3 ∧
    poll_cycle (some sample_claim_reply) (some sample_read_reply) =
      [{ stream_id := "1-0", payload := "\x7b\x7d" }] := by
  have key := read_reply_dispatch sample_externals (fun _ => true) (some sample_claim_reply)
    (some sample_read_reply)
  have h1 : (reply_entries (some sample_read_reply)).filterMap expected_task =
      [{ stream_id := "1-0", payload := "\x7b\x7d" }] := by decide
  exact ⟨by decide, key.1.trans h1⟩

/-! ## Theorems: entropy -/

theorem foldl_add_const {K : Type} [Field K] (f : K → Nat → K) (d : K) (l : List Nat)
    (h : ∀ e, ∀ c ∈ l, f e c = e + d) (init : K) :
    l.foldl f init = init + (l.length : K) * d := by
  induction l generalizing init with
  | nil => simp
  | cons c cs ih =>
    rw [List.foldl_cons, h init c (List.mem_cons_self _ _),
      ih (fun e c' hc' => h e c' (List.mem_cons_of_mem _ hc'))]
    simp only [List.length_cons, Nat.cast_add, Nat.cast_one]
    ring

theorem decode_groups_short (cs : List Char) (h : cs.length < 2) : decode_groups cs = [] := by
  match cs with
  | [] => rfl
  | [_] => rfl
  | _ :: _ :: _ => exact absurd h (by simp)

theorem compute_entropy_unfold {K : Type} [Field K] (log2 : K → K) (hex : String)
    (hb : decode_groups hex.toList ≠ []) :
    compute_entropy log2 hex =
      (freq_table (decode_groups hex.toList)).foldl
        (fun (entropy : K) (c : Nat) =>
          if c = 0 then entropy
          else entropy - ((c : K) / ((decode_groups hex.toList).length : K)) *
            log2 ((c : K) / ((decode_groups hex.toList).length : K)))
        0 := by
  have hlen : ¬ hex.length < 2 := by
    intro h
    exact hb (decode_groups_short _ h)
  have hc : ¬ (decode_groups hex.toList).length = 0 := by
    intro h
    exact hb (List.length_eq_zero.mp h)
  simp only [compute_entropy, hlen, hc, if_false]

theorem logb_two_inv_256 : Real.logb 2 ((1 : ℝ) / 256) = -8 := by
  rw [one_div, Real.logb_inv]
  have h : (256 : ℝ) = 2 ^ (8 : ℕ) := by norm_num
  rw [h, Real.logb_pow]
  simp

theorem entropy_single (hex : String) (h : (decode_groups hex.toList).length = 1) :
    compute_entropy (Real.logb 2) hex = 0 := by
  obtain ⟨b, hb⟩ := List.length_eq_one.mp h
  rw [compute_entropy_unfold _ _ (by rw [hb]; exact List.cons_ne_nil _ _), hb]
  rw [foldl_add_const _ 0]
  · simp
  · intro e c hc
    simp only [freq_table, List.mem_map, List.mem_range] at hc
    obtain ⟨v, _, rfl⟩ := hc
    by_cases hv : v = b
    · subst hv
      simp
    · have : List.count v [b] = 0 := by
        rw [List.count_eq_zero]
        simpa using hv
      simp [this]

theorem entropy_all_bytes (hex : String)
    (h : (decode_groups hex.toList).Perm (List.range 256)) :
    compute_entropy (Real.logb 2) hex = 8 := by
  have hne : decode_groups hex.toList ≠ [] := by
    intro h0
    rw [h0] at h
    have := h.length_eq
    simp at this
  have hlen : (decode_groups hex.toList).length = 256 := by
    rw [h.length_eq, List.length_range]
  rw [compute_entropy_unfold _ _ hne, hlen, foldl_add_const _ ((1 : ℝ) / 32)]
  · simp [freq_table]
    norm_num
  · intro e c hc
    simp only [freq_table, List.mem_map, List.mem_range] at hc
    obtain ⟨v, hv, rfl⟩ := hc
    have hcount : List.count v (decode_groups hex.toList) = 1 := by
      rw [h.count_eq]
      exact List.count_eq_one_of_mem (List.nodup_range 256) (List.mem_range.mpr hv)
    rw [hcount]
    simp only [one_ne_zero, if_false, Nat.cast_one, Nat.cast_ofNat]
    rw [logb_two_inv_256]
    norm_num

set_option maxRecDepth 100000 in
theorem decode_all_bytes_hex : decode_groups all_bytes_hex.toList = List.range 256 := by
  decide

theorem logb_two_half : Real.logb 2 ((1 : ℝ) / 2) = -1 := by
  rw [one_div, Real.logb_inv, Real.logb_self_eq_one (by norm_num)]

/-- C8: over the reals, with the base-2 logarithm, `compute_entropy` is 0 on the
empty string and on every string that decodes to exactly one byte, and is 8 on
every string that decodes to the 256 byte values once each. -/
theorem entropy_values (hex : String) :
    compute_entropy (Real.logb 2) "" = 0 ∧
    ((decode_groups hex.toList).length = 1 → compute_entropy (Real.logb 2) hex = 0) ∧
    ((decode_groups hex.toList).Perm (List.range 256) →
      compute_entropy (Real.logb 2) hex = 8) := by
  refine ⟨?_, entropy_single hex, entropy_all_bytes hex⟩
  simp [compute_entropy]

theorem entropy_values_witness :
    (decode_groups "7f".toList).length = 1 ∧ compute_entropy (Real.logb 2) "7f" = 0 ∧
    (decode_groups all_bytes_hex.toList).Perm (List.range 256) ∧
    compute_entropy (Real.logb 2) all_bytes_hex = 8 := by
  have h1 : (decode_groups "7f".toList).length = 1 := by decide
  have h2 : (decode_groups all_bytes_hex.toList).Perm (List.range 256) := by
    rw [decode_all_bytes_hex]
  exact ⟨h1, (entropy_values "7f").2.1 h1, h2, (entropy_values all_bytes_hex).2.2 h2⟩

set_option maxRecDepth 100000 in
theorem freq_table_0_1 : freq_table [0, 1] = 1 :: 1 :: List.replicate 254 0 := by
  decide

/-- C7 on the code: the groups "1g", " 1" and "-1" are not skipped, they are
decoded as the bytes 1, 1 and 255; so "001g" decodes to the two bytes 0 and 1 and
has entropy 1, where skipping "1g" would leave the single byte 0 and entropy 0. -/
theorem malformed_groups_decoded :
    decode_groups "1g".toList = [1] ∧
    decode_groups " 1".toList = [1] ∧
    decode_groups "-1".toList = [255] ∧
    decode_groups "001g".toList = [0, 1] ∧
    compute_entropy (Real.logb 2) "001g" = 1 ∧
    compute_entropy (Real.logb 2) "00" = 0 := by
  have hd : decode_groups "001g".toList = [0, 1] := by decide
  refine ⟨by decide, by decide, by decide, hd, ?_, entropy_single "00" (by decide)⟩
  rw [compute_entropy_unfold _ _ (by rw [hd]; exact List.cons_ne_nil _ _), hd]
  rw [freq_table_0_1, List.foldl_cons, List.foldl_cons, foldl_add_const _ 0]
  · simp only [one_ne_zero, if_false, Nat.cast_one, List.length_cons, List.length_nil,
      List.length_replicate]
    norm_num [logb_two_half]
  · intro e c hc
    rw [List.eq_of_mem_replicate hc]
    simp

/-! ## Theorems: the thread pool -/

theorem flatMap_held_set {α : Type} (ws : List (Worker α)) (i : Nat) (w w' : Worker α)
    (h : ws[i]? = some w) :
    ∃ l₁ l₂, ws.flatMap Worker.held = l₁ ++ w.held ++ l₂ ∧
      (ws.set i w').flatMap Worker.held = l₁ ++ w'.held ++ l₂ := by
  induction ws generalizing i with
  | nil => simp at h
  | cons a as ih =>
    cases i with
    | zero =>
      simp only [List.getElem?_cons_zero, Option.some.injEq] at h
      subst h
      exact ⟨[], as.flatMap Worker.held, by simp [List.flatMap_cons], by simp [List.flatMap_cons]⟩
    | succ j =>
      simp only [List.getElem?_cons_succ] at h
      obtain ⟨l₁, l₂, e₁, e₂⟩ := ih j h
      refine ⟨a.held ++ l₁, l₂, ?_, ?_⟩
      · simp [List.flatMap_cons, e₁]
      · simp [List.flatMap_cons, e₂]

theorem invariant_init (α : Type) (n : Nat) : (ThreadPool.init α n).invariant n := by
  refine ⟨by simp [ThreadPool.init], ?_, ?_⟩
  · have : (List.replicate n (Worker.waiting : Worker α)).flatMap Worker.held = [] := by
      induction n with
      | zero => rfl
      | succ k ih => simp [List.replicate_succ, List.flatMap_cons, Worker.held, ih]
    simp [ThreadPool.init, ThreadPool.in_flight, this]
  · rintro ⟨w, hw, rfl⟩
    simp [ThreadPool.init, List.mem_replicate] at hw

theorem invariant_step {α : Type} (n : Nat) (p q : ThreadPool α) (a : Action α)
    (hp : p.invariant n) (hs : p.step a = some q) : q.invariant n := by
  obtain ⟨hlen, hperm, hex⟩ := hp
  cases a with
  | enqueue t =>
    simp only [ThreadPool.step, ThreadPool.enqueue] at hs
    by_cases hst : p.stop_ = true
    · simp only [hst, if_true, Option.some.injEq] at hs
      subst hs
      exact ⟨hlen, hperm, hex⟩
    · simp only [hst, Bool.false_eq_true, if_false, Option.some.injEq] at hs
      subst hs
      refine ⟨hlen, ?_, ?_⟩
      · simp only [ThreadPool.in_flight] at hperm ⊢
        rw [← List.append_assoc]
        exact List.Perm.append_right _ hperm
      · intro hw
        exact absurd (hex hw).1 hst
  | stop =>
    simp only [ThreadPool.step, Option.some.injEq] at hs
    subst hs
    refine ⟨hlen, hperm, ?_⟩
    intro hw
    exact ⟨rfl, (hex hw).2⟩
  | take i =>
    simp only [ThreadPool.step] at hs
    rcases hw : p.workers_[i]? with _ | w
    · simp [hw] at hs
    rcases ht : p.tasks_ with _ | ⟨t, rest⟩
    · cases w <;> simp [hw, ht] at hs
    cases w with
    | running t' => simp [hw, ht] at hs
    | exited => simp [hw, ht] at hs
    | waiting =>
      simp only [hw, ht, Option.some.injEq] at hs
      subst hs
      obtain ⟨l₁, l₂, e₁, e₂⟩ := flatMap_held_set p.workers_ i _ (Worker.running t) hw
      refine ⟨by simp [hlen], ?_, ?_⟩
      · simp only [ThreadPool.in_flight, e₁, e₂, ht, Worker.held] at hperm ⊢
        refine hperm.trans ?_
        classical
        rw [List.perm_iff_count]
        intro x
        simp only [List.count_append, List.count_cons, List.count_nil]
        omega
      · rintro ⟨w, hw', rfl⟩
        rcases List.mem_or_eq_of_mem_set hw' with hm | he
        · have := (hex ⟨_, hm, rfl⟩).2
          rw [ht] at this
          cases this
        · cases he
  | finish i =>
    simp only [ThreadPool.step] at hs
    rcases hw : p.workers_[i]? with _ | w
    · simp [hw] at hs
    cases w with
    | waiting => simp [hw] at hs
    | exited => simp [hw] at hs
    | running t =>
      simp only [hw, Option.some.injEq] at hs
      subst hs
      obtain ⟨l₁, l₂, e₁, e₂⟩ := flatMap_held_set p.workers_ i _ Worker.waiting hw
      refine ⟨by simp [hlen], ?_, ?_⟩
      · simp only [ThreadPool.in_flight, e₁, e₂, Worker.held] at hperm ⊢
        refine hperm.trans ?_
        classical
        rw [List.perm_iff_count]
        intro x
        simp only [List.count_append, List.count_cons, List.count_nil]
        omega
      · rintro ⟨w, hw', rfl⟩
        rcases List.mem_or_eq_of_mem_set hw' with hm | he
        · exact hex ⟨_, hm, rfl⟩
        · cases he
  | exit i =>
    simp only [ThreadPool.step] at hs
    rcases hw : p.workers_[i]? with _ | w
    · simp [hw] at hs
    cases w with
    | running t => simp [hw] at hs
    | exited => simp [hw] at hs
    | waiting =>
      simp only [hw] at hs
      by_cases hc : (p.stop_ && p.tasks_.isEmpty) = true
      · simp only [hc, if_true, Option.some.injEq] at hs
        subst hs
        obtain ⟨l₁, l₂, e₁, e₂⟩ := flatMap_held_set p.workers_ i _ Worker.exited hw
        simp only [Bool.and_eq_true, List.isEmpty_iff] at hc
        refine ⟨by simp [hlen], ?_, fun _ => hc⟩
        simp only [ThreadPool.in_flight, e₁, e₂, Worker.held] at hperm ⊢
        exact hperm
      · simp [hc] at hs

theorem invariant_run {α : Type} (n : Nat) (acts : List (Action α)) (p q : ThreadPool α)
    (hp : p.invariant n) (hr : p.run acts = some q) : q.invariant n := by
  induction acts generalizing p with
  | nil =>
    simp only [ThreadPool.run, Option.some.injEq] at hr
    subst hr
    exact hp
  | cons a rest ih =>
    simp only [ThreadPool.run] at hr
    rcases hs : p.step a with _ | p'
    · simp [hs] at hr
    · simp only [hs] at hr
      exact ih p' (invariant_step n p p' a hp hs) hr

theorem in_flight_all_exited {α : Type} (ws : List (Worker α))
    (h : ∀ w ∈ ws, w = Worker.exited) : ws.flatMap Worker.held = [] := by
  induction ws with
  | nil => rfl
  | cons a as ih =>
    have ha : a = Worker.exited := h a (List.mem_cons_self _ _)
    subst ha
    simp [List.flatMap_cons, Worker.held, ih (fun w hw => h w (List.mem_cons_of_mem _ hw))]

/-- C10: in the pool as a state machine, an `enqueue` on a pool whose stop has
been requested throws and leaves the state as it was; a worker returns only from
a state with stop set and the queue empty; and in every state reached from a
constructed pool in which all workers have returned, the queue is empty, no task
is held by a worker, and the completed tasks are the accepted tasks, each as
often as it was accepted. -/
theorem pool_drains {α : Type} (n : Nat) (p₀ p : ThreadPool α) (acts : List (Action α))
    (hc : ThreadPool.create α n = .ok p₀) (hr : p₀.run acts = some p) :
    (∀ t, p.stop_ = true → p.enqueue t = .error .stopped ∧ p.step (.enqueue t) = some p) ∧
    (∀ i q, p.step (.exit i) = some q → p.stop_ = true ∧ p.tasks_ = []) ∧
    (p.all_exited → p.tasks_ = [] ∧ p.in_flight = [] ∧ p.completed.Perm p.accepted) := by
  have hn : n ≠ 0 := by
    intro h0
    simp [ThreadPool.create, h0] at hc
  have h0 : p₀ = ThreadPool.init α n := by
    simp only [ThreadPool.create, hn, if_false, Except.ok.injEq] at hc
    exact hc.symm
  subst h0
  obtain ⟨hlen, hperm, hex⟩ := invariant_run n acts _ p (invariant_init α n) hr
  refine ⟨?_, ?_, ?_⟩
  · intro t hst
    simp [ThreadPool.step, ThreadPool.enqueue, hst]
  · intro i q hs
    simp only [ThreadPool.step] at hs
    rcases hw : p.workers_[i]? with _ | w
    · simp [hw] at hs
    cases w with
    | running t => simp [hw] at hs
    | exited => simp [hw] at hs
    | waiting =>
      simp only [hw] at hs
      by_cases hcnd : (p.stop_ && p.tasks_.isEmpty) = true
      · simpa only [Bool.and_eq_true, List.isEmpty_iff] using hcnd
      · simp [hcnd] at hs
  · intro hall
    have hfl : p.in_flight = [] := in_flight_all_exited _ hall
    obtain ⟨w, hw⟩ : ∃ w, w ∈ p.workers_ := by
      apply List.exists_mem_of_length_pos
      omega
    have ht := (hex ⟨w, hw, hall w hw⟩).2
    refine ⟨ht, hfl, ?_⟩
    rw [hfl, ht] at hperm
    simpa using hperm.symm

theorem pool_drains_witness :
    ThreadPool.create Nat 2 = .ok (ThreadPool.init Nat 2) ∧
    (ThreadPool.init Nat 2).run sample_actions = some sample_final ∧
    sample_final.all_exited ∧
    sample_final.enqueue 3 = .error .stopped ∧
    sample_final.tasks_ = [] ∧
    sample_final.completed.Perm sample_final.accepted := by
  have hall : sample_final.all_exited := by
    intro w hw
    simp [sample_final] at hw
    exact hw
  have key := pool_drains 2 (ThreadPool.init Nat 2) sample_final sample_actions rfl rfl
  exact ⟨rfl, rfl, hall, (key.1 3 rfl).1, (key.2.2 hall).1, (key.2.2 hall).2.2⟩

end Analyzer
